import Mathlib

/-!
# A shallow embedding of the rhai tree-walking evaluator core

This development embeds the evaluator core of the scripting engine
(src/engine.rs, src/scope.rs, src/optimize.rs) in Lean and proves or refutes
the specification claims about it.

Modelling conventions:

* Machine integers (`i64`) are modelled as `Int`; the interpreter performs no
  overflowing arithmetic of its own (arithmetic lives in host-registered
  native functions, which are parameters of the model).
* The `no_float`, `no_module` build configuration is modelled: the `Float`
  and `Module` variants of `Union` and the `Import` statement are absent.
  No claim concerns them.
* `&mut` borrows threading through the chain evaluator are rendered
  functionally: a `Target` is the current value of the place together with a
  write-back continuation; the chain entry point stores the final value back
  into the scope slot it came from.
* Rust panics (`unimplemented!`, `unreachable!`, slice-index panics) are
  modelled as the distinguished error `EvalError.panic`, which no
  interpreter-level handler intercepts.
* Iteration of `while`/`loop` and recursion through function calls is made
  total with a `fuel` parameter; exhausting it yields the distinguished
  error `EvalError.outOfFuel` (modelling a computation still running).
* The 64-bit hashes `calc_fn_hash(name, type_ids)` / `calc_fn_def(name, arity)`
  are modelled by the injective keys `(name, type_ids)` and `(name, arity)`
  themselves; the source assumes freedom from collisions.
-/

namespace Rhai

/-- Source position, for diagnostics only. `0` plays the role of
`Position::none()`. -/
abbrev Pos := Nat

/-- The type identity of a `Dynamic` value (`TypeId` in the source); one tag
per variant of `Union`. -/
inductive TypeId where
  | tUnit | tBool | tStr | tChar | tInt | tArray | tMap
  deriving DecidableEq, Repr

/-- The `Dynamic` tagged value (`Union` of src/any.rs — the file itself is
outside src/, its variants are fixed by their uses in src/engine.rs).
`Float` is absent (`no_float`), `Variant`/`Module` host values are not
modelled (no claim concerns them). The map is modelled as an association
list standing for the `HashMap<String, Dynamic>`. -/
inductive Dynamic where
  | unit : Dynamic
  | bool (b : Bool) : Dynamic
  | str (s : String) : Dynamic
  | char (c : Char) : Dynamic
  | int (i : Int) : Dynamic
  | array (items : List Dynamic) : Dynamic
  | map (entries : List (String × Dynamic)) : Dynamic
  deriving Repr

namespace Dynamic

def type_id : Dynamic → TypeId
  | .unit => .tUnit
  | .bool _ => .tBool
  | .str _ => .tStr
  | .char _ => .tChar
  | .int _ => .tInt
  | .array _ => .tArray
  | .map _ => .tMap

/-- Pretty type name, used in mismatch diagnostics. -/
def type_name : Dynamic → String
  | .unit => "()"
  | .bool _ => "bool"
  | .str _ => "string"
  | .char _ => "char"
  | .int _ => "i64"
  | .array _ => "array"
  | .map _ => "map"

/-- `as_bool`; on failure returns the type name for the mismatch error. -/
def as_bool : Dynamic → Except String Bool
  | .bool b => .ok b
  | d => .error d.type_name

def as_int : Dynamic → Except String Int
  | .int i => .ok i
  | d => .error d.type_name

def as_str : Dynamic → Except String String
  | .str s => .ok s
  | d => .error d.type_name

/-- `take_string` consumes the value; functionally identical to `as_str`. -/
def take_string : Dynamic → Except String String
  | .str s => .ok s
  | d => .error d.type_name

def is_map : Dynamic → Bool
  | .map _ => true
  | _ => false

def is_array : Dynamic → Bool
  | .array _ => true
  | _ => false

def is_string : Dynamic → Bool
  | .str _ => true
  | _ => false

end Dynamic

/-- Lookup in the association-list model of `HashMap<String, Dynamic>`. -/
def map_get : List (String × Dynamic) → String → Option Dynamic
  | [], _ => none
  | (k, v) :: rest, key => if k = key then some v else map_get rest key

/-- Insert-or-replace in the association-list model of the map
(`HashMap::insert` / `entry().or_insert` followed by a write). -/
def map_insert : List (String × Dynamic) → String → Dynamic → List (String × Dynamic)
  | [], key, v => [(key, v)]
  | (k, w) :: rest, key, v =>
      if k = key then (k, v) :: rest else (k, w) :: map_insert rest key v

/-- `entry(key).or_insert(Default::default())`: insert a unit default only
when the key is absent. -/
def map_entry_or_insert_unit (m : List (String × Dynamic)) (key : String) :
    List (String × Dynamic) :=
  match map_get m key with
  | some _ => m
  | none => m ++ [(key, .unit)]

/-- Does the character list start with the pattern? (`str::starts_with`.) -/
def starts_with : List Char → List Char → Bool
  | _, [] => true
  | [], _ :: _ => false
  | a :: t, b :: pt => a = b && starts_with t pt

/-- Does the character list contain the pattern as a contiguous
sub-sequence? (`str::contains` for substring search.) -/
def contains_seq : List Char → List Char → Bool
  | [], pat => pat.isEmpty
  | a :: t, pat => starts_with (a :: t) pat || contains_seq t pat

/-- `return` vs `throw` (`ReturnType` of the parser AST). -/
inductive ReturnType where
  | normal
  | exception
  deriving DecidableEq, Repr

mutual

/-- Expression AST (`Expr` of src/parser.rs; the file is outside src/, the
constructors and their payloads are fixed by their uses in src/engine.rs and
src/optimize.rs). Module paths are absent (`no_module`); identifiers are
plain strings (interning is transparent for semantics). The `variable`
cached index is the `NonZeroUsize` top-relative offset. -/
inductive Expr where
  | integerConstant (i : Int) (pos : Pos)
  | stringConstant (s : String) (pos : Pos)
  | charConstant (c : Char) (pos : Pos)
  | variable (name : String) (index : Option Nat) (pos : Pos)
  | property (name : String) (pos : Pos)
  | stmtE (s : Stmt) (pos : Pos)
  | assignment (lhs rhs : Expr) (op_pos : Pos)
  | dot (lhs rhs : Expr) (pos : Pos)
  | index (lhs rhs : Expr) (pos : Pos)
  | array (items : List Expr) (pos : Pos)
  | mapE (items : List (String × Expr × Pos)) (pos : Pos)
  | fnCall (name : String) (args : List Expr) (def_val : Option Dynamic) (pos : Pos)
  | inE (lhs rhs : Expr) (pos : Pos)
  | and (lhs rhs : Expr) (pos : Pos)
  | or (lhs rhs : Expr) (pos : Pos)
  | trueE (pos : Pos)
  | falseE (pos : Pos)
  | unit (pos : Pos)
  deriving Repr

/-- Statement AST (`Stmt` of src/parser.rs, by its uses in src/engine.rs and
src/optimize.rs). `Import` is absent (`no_module`). -/
inductive Stmt where
  | noop (pos : Pos)
  | ifThenElse (guard : Expr) (if_body : Stmt) (else_body : Option Stmt)
  | whileS (guard : Expr) (body : Stmt)
  | loop (body : Stmt)
  | forS (name : String) (range : Expr) (body : Stmt)
  | letS (name : String) (init : Option Expr) (pos : Pos)
  | constS (name : String) (value : Expr) (pos : Pos)
  | block (stmts : List Stmt) (pos : Pos)
  | exprS (e : Expr)
  | continueS (pos : Pos)
  | breakS (pos : Pos)
  | returnWithVal (val : Option Expr) (rt : ReturnType) (pos : Pos)
  deriving Repr

end

namespace Expr

/-- `Expr::position`. -/
def position : Expr → Pos
  | .integerConstant _ p => p
  | .stringConstant _ p => p
  | .charConstant _ p => p
  | .variable _ _ p => p
  | .property _ p => p
  | .stmtE _ p => p
  | .assignment _ _ p => p
  | .dot _ _ p => p
  | .index _ _ p => p
  | .array _ p => p
  | .mapE _ p => p
  | .fnCall _ _ _ p => p
  | .inE _ _ p => p
  | .and _ _ p => p
  | .or _ _ p => p
  | .trueE p => p
  | .falseE p => p
  | .unit p => p

/-- Modelled from the spec: `Expr::is_constant` lives in the external parser
module ("`Const` … init must be a literal constant form"); a constant is a
literal of a primitive type. -/
def is_constant : Expr → Bool
  | .integerConstant _ _ => true
  | .stringConstant _ _ => true
  | .charConstant _ _ => true
  | .trueE _ => true
  | .falseE _ => true
  | .unit _ => true
  | _ => false

/-- Modelled from the spec: the value of a constant expression
(`Expr::get_constant_value` of the external parser module). -/
def get_constant_value : Expr → Dynamic
  | .integerConstant i _ => .int i
  | .stringConstant s _ => .str s
  | .charConstant c _ => .char c
  | .trueE _ => .bool true
  | .falseE _ => .bool false
  | _ => .unit

/-- Modelled from the spec: display form of a constant expression
(`Expr::get_constant_str`), used in the assignment-to-constant diagnostic. -/
def get_constant_str : Expr → String
  | .integerConstant i _ => toString i
  | .stringConstant s _ => s
  | .charConstant c _ => String.mk [c]
  | .trueE _ => "true"
  | .falseE _ => "false"
  | _ => ""

end Expr

/-- A script-defined function `{ name, params, body }` (`FnDef`). -/
structure FnDef where
  name : String
  params : List String
  body : Stmt
  deriving Repr

/-- The script-function library keyed by `hash(name, arity)`
(`FunctionsLib`); the key is modelled by the pair itself. -/
abbrev FunctionsLib := List FnDef

/-- `FunctionsLib::get_function`: look up by name and parameter count. -/
def FunctionsLib.get_function (lib : FunctionsLib) (name : String) (params : Nat) :
    Option FnDef :=
  List.find? (fun f => f.name = name && f.params.length = params) lib

/-- `FunctionsLib::has_function`. -/
def FunctionsLib.has_function (lib : FunctionsLib) (name : String) (params : Nat) : Bool :=
  (lib.get_function name params).isSome

/-- Type of a scope entry: normal variable or immutable constant
(`EntryType` of src/scope.rs; the separate `Module` kind of the engine's
older enum is absent under `no_module`). -/
inductive EntryType where
  | normal
  | constant
  deriving DecidableEq, Repr

/-- One entry of the `Scope`. The optional pre-parsed constant expression is
kept for the optimizer. -/
structure Entry where
  name : String
  typ : EntryType
  value : Dynamic
  expr : Option Expr
  deriving Repr

/-- The `Scope`: an ordered vector of entries; index `0` is the oldest. -/
abbrev Scope := List Entry

namespace Scope

def new : Scope := []

def len (s : Scope) : Nat := List.length s

/-- `Scope::rewind`: truncate to a previous size. -/
def rewind (s : Scope) (size : Nat) : Scope := List.take size s

/-- `Scope::push_dynamic_value` (the `map_expr` flag decides whether to keep
a constant-expression form for the optimizer). -/
def push_dynamic_value (s : Scope) (name : String) (typ : EntryType) (value : Dynamic)
    (expr : Option Expr) : Scope :=
  s ++ [⟨name, typ, value, expr⟩]

/-- `Scope::push`: push a plain normal entry. -/
def push (s : Scope) (name : String) (value : Dynamic) : Scope :=
  s.push_dynamic_value name .normal value none

/-- `Scope::get` / `get_index`: scan from the newest entry, returning the
vector index and kind of the youngest entry with the given name. -/
def get_index (s : Scope) (name : String) : Option (Nat × EntryType) :=
  (List.foldl
    (fun (acc : Nat × Option (Nat × EntryType)) e =>
      (acc.1 + 1, if e.name = name then some (acc.1, e.typ) else acc.2))
    (0, none) s).2

/-- Value at a vector index (`Scope::get_mut`, read side). Out-of-range
reads model the `expect("invalid index in Scope")` panic by returning
`none`. -/
def get_value_at (s : Scope) (index : Nat) : Option (Dynamic × EntryType) :=
  (List.get? s index).map fun e => (e.value, e.typ)

/-- Write through `Scope::get_mut`: replace the value at a vector index. -/
def set_value_at : Scope → Nat → Dynamic → Scope
  | [], _, _ => []
  | e :: rest, 0, v => { e with value := v } :: rest
  | e :: rest, n + 1, v => e :: set_value_at rest n v

/-- `Scope::extend`: append `(name, type, value)` triples in order. -/
def extend (s : Scope) (entries : List (String × EntryType × Dynamic)) : Scope :=
  s ++ entries.map fun (n, t, v) => ⟨n, t, v, none⟩

end Scope

/-- Transient per-evaluation state: the `always_search` flag. -/
structure State where
  always_search : Bool
  deriving DecidableEq, Repr

/-- `State::new`. -/
def State.new : State := ⟨false⟩

/-- The error taxonomy (`EvalAltResult` of src/result.rs; the file is
outside src/, the variants and payloads are fixed by their constructions in
src/engine.rs). `ret` and `errorLoopBreak` are the internal control-flow
sentinels. `panic` models Rust panics (`unimplemented!` etc.); `outOfFuel`
models a computation that exceeds the step budget of the embedding. -/
inductive EvalError where
  | errorParsingWrongFnDefinition (pos : Pos)
  | errorVariableNotFound (name : String) (pos : Pos)
  | errorFunctionNotFound (sig : String) (pos : Pos)
  | errorMismatchOutputType (type_name : String) (pos : Pos)
  | errorNumericIndexExpr (pos : Pos)
  | errorStringIndexExpr (pos : Pos)
  | errorIndexingType (msg : String) (pos : Pos)
  | errorArrayBounds (len : Nat) (idx : Int) (pos : Pos)
  | errorAssignmentToConstant (name : String) (pos : Pos)
  | errorAssignmentToUnknownLHS (pos : Pos)
  | errorDotExpr (msg : String) (pos : Pos)
  | errorInExpr (pos : Pos)
  | errorFor (pos : Pos)
  | errorBooleanArgMismatch (op : String) (pos : Pos)
  | errorLogicGuard (pos : Pos)
  | errorStackOverflow (pos : Pos)
  | errorRuntime (msg : String) (pos : Pos)
  | errorLoopBreak (is_break : Bool) (pos : Pos)
  | ret (val : Dynamic) (pos : Pos)
  | panic (msg : String)
  | outOfFuel
  deriving Repr

/-- Modelled from the spec: `EvalAltResult::set_position` lives in the
external src/result.rs ("script-function boundaries rewrite an inner error's
position to the call site"): stamp the given position onto the error. A
panic has no position and is not an `EvalAltResult`. -/
def EvalError.set_position : EvalError → Pos → EvalError
  | .errorParsingWrongFnDefinition _, p => .errorParsingWrongFnDefinition p
  | .errorVariableNotFound n _, p => .errorVariableNotFound n p
  | .errorFunctionNotFound s _, p => .errorFunctionNotFound s p
  | .errorMismatchOutputType t _, p => .errorMismatchOutputType t p
  | .errorNumericIndexExpr _, p => .errorNumericIndexExpr p
  | .errorStringIndexExpr _, p => .errorStringIndexExpr p
  | .errorIndexingType m _, p => .errorIndexingType m p
  | .errorArrayBounds l i _, p => .errorArrayBounds l i p
  | .errorAssignmentToConstant n _, p => .errorAssignmentToConstant n p
  | .errorAssignmentToUnknownLHS _, p => .errorAssignmentToUnknownLHS p
  | .errorDotExpr m _, p => .errorDotExpr m p
  | .errorInExpr _, p => .errorInExpr p
  | .errorFor _, p => .errorFor p
  | .errorBooleanArgMismatch o _, p => .errorBooleanArgMismatch o p
  | .errorLogicGuard _, p => .errorLogicGuard p
  | .errorStackOverflow _, p => .errorStackOverflow p
  | .errorRuntime m _, p => .errorRuntime m p
  | .errorLoopBreak b _, p => .errorLoopBreak b p
  | .ret v _, p => .ret v p
  | .panic m, _ => .panic m
  | .outOfFuel, _ => .outOfFuel

end Rhai

namespace Rhai

/-! ## Engine data: function tables, packages, keywords -/

/-- Reserved keyword names (src/engine.rs). -/
def KEYWORD_PRINT : String := "print"

def KEYWORD_DEBUG : String := "debug"

def KEYWORD_TYPE_OF : String := "type_of"

def KEYWORD_EVAL : String := "eval"

def FUNC_MUT_GETTER : String := "mut_get$"

def FUNC_GETTER : String := "get$"

def FUNC_SETTER : String := "set$"

def FUNC_INDEXER : String := "$index$"

/-- `make_getter`. -/
def make_getter (id : String) : String := FUNC_GETTER ++ id

/-- `make_mut_getter`. -/
def make_mut_getter (id : String) : String := FUNC_MUT_GETTER ++ id

/-- `make_setter`. -/
def make_setter (id : String) : String := FUNC_SETTER ++ id

/-- `extract_prop_from_getter`. -/
def extract_prop_from_getter (fn_name : String) : Option String :=
  if FUNC_GETTER.isPrefixOf fn_name then some (fn_name.drop FUNC_GETTER.length) else none

/-- `extract_prop_from_setter`. -/
def extract_prop_from_setter (fn_name : String) : Option String :=
  if FUNC_SETTER.isPrefixOf fn_name then some (fn_name.drop FUNC_SETTER.length) else none

/-- A native callable `(args, pos) → Result<Dynamic>` (`FnAny`). Mutation of
the `&mut` argument slice by host natives is not modelled (no claim depends
on it); consumption of arguments by script-function calls is modelled
explicitly in `call_fn_from_lib`. -/
abbrev NativeFn := List Dynamic → Except EvalError Dynamic

/-- A per-type iterator factory (`IteratorFn`). -/
abbrev IteratorFn := Dynamic → List Dynamic

/-- A registered `mut_getter` callback (`ObjectGetMutCallbackAny`): it turns
a mutable borrow of the target into a mutable borrow of a sub-object,
modelled functionally as the sub-value plus a write-back continuation;
`none` models the downcast `expect` panic. -/
abbrev MutGetterFn := Dynamic → Option (Dynamic × (Dynamic → Dynamic))

/-- A registered mutable indexer (`ObjectMutIndexerCallbackAny`), modelled
like `MutGetterFn`. -/
abbrev MutIndexerFn := Dynamic → Dynamic → Option (Dynamic × (Dynamic → Dynamic))

/-- Association-list lookup, modelling `HashMap::get` keyed by the perfect
hash of the key. -/
def assoc_get {κ β : Type} [DecidableEq κ] : List (κ × β) → κ → Option β
  | [], _ => none
  | (k, v) :: rest, key => if k = key then some v else assoc_get rest key

/-- A loaded package: a native-function table and per-type iterators
(`PackageStore`/`PackageLibrary`). -/
structure PackageStore where
  functions : List ((String × List TypeId) × NativeFn)
  type_iterators : List (TypeId × IteratorFn)

/-- The scripting engine (`Engine`): packages, registered natives, mut
getters/indexers, iterators, and the call-depth bound. The parser is an
external collaborator; `parse` stands for
`compile_with_scope_and_optimization_level(&Scope::new(), script, None)`. -/
structure Engine where
  packages : List PackageStore
  functions : List ((String × List TypeId) × NativeFn)
  mut_getters : List ((String × TypeId) × MutGetterFn)
  mut_indexers : List ((TypeId × TypeId) × MutIndexerFn)
  type_iterators : List (TypeId × IteratorFn)
  max_call_stack_depth : Nat
  parse : String → Except EvalError (List Stmt × List FnDef)

/-- `MAX_CALL_STACK_DEPTH` under `cfg(debug_assertions)`. -/
def MAX_CALL_STACK_DEPTH_debug : Nat := 28

/-- `MAX_CALL_STACK_DEPTH` under `cfg(not(debug_assertions))`. -/
def MAX_CALL_STACK_DEPTH_release : Nat := 256

/-- The default depth bound as selected by the build configuration. -/
def MAX_CALL_STACK_DEPTH (debug_assertions : Bool) : Nat :=
  if debug_assertions then MAX_CALL_STACK_DEPTH_debug else MAX_CALL_STACK_DEPTH_release

/-- `Engine::new_raw`: an engine with no built-in functions. The parse hook
stands for the external parser. -/
def Engine.new_raw (debug_assertions : Bool)
    (parse : String → Except EvalError (List Stmt × List FnDef)) : Engine where
  packages := []
  functions := []
  mut_getters := []
  mut_indexers := []
  type_iterators := []
  max_call_stack_depth := MAX_CALL_STACK_DEPTH debug_assertions
  parse := parse

/-- `Engine::load_package`: push the package to the top — packages are
searched in reverse load order. -/
def Engine.load_package (e : Engine) (package : PackageStore) : Engine :=
  { e with packages := package :: e.packages }

/-- `Engine::set_max_call_levels`. -/
def Engine.set_max_call_levels (e : Engine) (levels : Nat) : Engine :=
  { e with max_call_stack_depth := levels }

/-- Search the package list (in order, i.e. reverse load order) for a native
function with the given dispatch key. -/
def package_fn_get (pkgs : List PackageStore) (key : String × List TypeId) :
    Option NativeFn :=
  match pkgs with
  | [] => none
  | p :: rest =>
    match assoc_get p.functions key with
    | some f => some f
    | none => package_fn_get rest key

/-- Search the engine then the packages for an iterator factory
(`Stmt::For` evaluation). -/
def iterator_get (e : Engine) (tid : TypeId) : Option IteratorFn :=
  match assoc_get e.type_iterators tid with
  | some f => some f
  | none =>
    match e.packages with
    | _ =>
      (e.packages.map (fun p => assoc_get p.type_iterators tid)).foldl
        (fun acc o => match acc with | some f => some f | none => o) none

/-- `Engine::has_override`: is a system function overridden? Checks the
engine table, then packages, then script-defined functions of arity 1, all
with the `[String]` signature hash. -/
def has_override (e : Engine) (fn_lib : FunctionsLib) (name : String) : Bool :=
  (assoc_get e.functions (name, [TypeId.tStr])).isSome
    || e.packages.any (fun p => (assoc_get p.functions (name, [TypeId.tStr])).isSome)
    || fn_lib.has_function name 1

/-- `search_scope` (src/engine.rs): resolve a variable to its scope slot.
With a cached index, the slot is `len - index` (no name check); otherwise
scan by name from the newest entry. The module branch is absent
(`no_module`). Returns the slot index, its current value and its kind. -/
def search_scope (scope : Scope) (name : String) (index : Option Nat) (pos : Pos) :
    Except EvalError (Nat × Dynamic × EntryType) :=
  match index with
  | some i =>
    let idx := scope.len - i
    match scope.get_value_at idx with
    | some (v, t) => .ok (idx, v, t)
    | none => .error (.panic "invalid index in Scope")
  | none =>
    match scope.get_index name with
    | none => .error (.errorVariableNotFound name pos)
    | some (i, _) =>
      match scope.get_value_at i with
      | some (v, t) => .ok (i, v, t)
      | none => .error (.panic "invalid index in Scope")

/-- `Engine::get_indexed_mut`: resolve one indexing step on a base value.
The returned triple is the element value, the base after the get (a
`create` insertion mutates the base immediately), and the write-back
continuation standing for the returned mutable `Target`.

* Array + integer: negative or out of range → `ErrorArrayBounds`.
* Map + string: with `create`, `entry(key).or_insert(unit)`; without, a
  missing key is `ErrorIndexingType` (the read path never creates).
* String: `unimplemented!("Strings not yet implemented")`.
* Otherwise: registered mutable indexer, keyed by the base and index type
  ids; a missing indexer is `unimplemented!("Return some nice error")`. -/
def get_indexed_mut (e : Engine) (target : Dynamic) (idx : Dynamic)
    (idx_pos : Pos) (op_pos : Pos) (create : Bool) :
    Except EvalError (Dynamic × Dynamic × (Dynamic → Dynamic)) :=
  match target with
  | .array arr =>
    match idx.as_int with
    | .error _ => .error (.errorNumericIndexExpr idx_pos)
    | .ok index =>
      if 0 ≤ index then
        match arr.get? index.toNat with
        | some v => .ok (v, target, fun nv => .array (arr.set index.toNat nv))
        | none => .error (.errorArrayBounds arr.length index idx_pos)
      else
        .error (.errorArrayBounds arr.length index idx_pos)
  | .map m =>
    match idx.take_string with
    | .error _ => .error (.errorStringIndexExpr idx_pos)
    | .ok key =>
      if create then
        let m2 := map_entry_or_insert_unit m key
        .ok ((map_get m2 key).getD .unit, .map m2, fun nv => .map (map_insert m2 key nv))
      else
        match map_get m key with
        | some v => .ok (v, target, fun nv => .map (map_insert m key nv))
        | none =>
          .error (.errorIndexingType "TODO: Create a real index not found error?" idx_pos)
  | .str _ => .error (.panic "Strings not yet implemented")
  | _ =>
    match assoc_get e.mut_indexers (target.type_id, idx.type_id) with
    | some f =>
      match f target idx with
      | some (v, wb) => .ok (v, target, wb)
      | none => .error (.panic "Hash collision maybe?")
    | none => .error (.panic "Return some nice error")

/-- The state of the caller's argument slice after `call_fn_from_lib`:
`mem::take` replaces each argument zipped with a parameter by the default
unit; arguments beyond the parameter list are untouched. -/
def take_args : List String → List Dynamic → List Dynamic
  | _ :: ps, _ :: rest => Dynamic.unit :: take_args ps rest
  | [], rest => rest
  | _ :: _, [] => []

/-- Modelled from the spec: `map_dynamic_to_expr` lives in the external
parser module; a primitive value maps to its literal expression. -/
def map_dynamic_to_expr : Dynamic → Pos → Option Expr
  | .int i, p => some (.integerConstant i p)
  | .char c, p => some (.charConstant c p)
  | .str s, p => some (.stringConstant s p)
  | .bool true, p => some (.trueE p)
  | .bool false, p => some (.falseE p)
  | .unit, p => some (.unit p)
  | _, _ => none

/-- The outcome of one evaluation step: the result plus the scope and state
after it (mutable references in the source). -/
abbrev EvalResult := Except EvalError Dynamic × Scope × State

end Rhai

namespace Rhai

/-! ## The tree-walking evaluator

One mutual block, total via a structural `fuel` parameter: every function
peels one unit of fuel and hands the remainder to its callees, so closed
runs compute by kernel reduction. `level` is the call-stack depth counter of
the source. -/

mutual

/-- `Engine::eval_expr`. -/
def eval_expr (e : Engine) (fuel : Nat) (fn_lib : FunctionsLib) (scope : Scope)
    (state : State) (expr : Expr) (level : Nat) : EvalResult :=
  match fuel with
  | 0 => (.error .outOfFuel, scope, state)
  | fuel + 1 =>
    match expr with
    | .integerConstant i _ => (.ok (.int i), scope, state)
    | .stringConstant s _ => (.ok (.str s), scope, state)
    | .charConstant c _ => (.ok (.char c), scope, state)
    | .variable id index pos =>
      let index := if state.always_search then none else index
      match search_scope scope id index pos with
      | .error err => (.error err, scope, state)
      | .ok (_, v, _) => (.ok v, scope, state)
    | .property _ _ => (.error (.panic "unreachable: property outside chain"), scope, state)
    | .stmtE s _ => eval_stmt e fuel fn_lib scope state s level
    | .assignment lhs rhs op_pos =>
      match eval_expr e fuel fn_lib scope state rhs level with
      | (.error err, scope, state) => (.error err, scope, state)
      | (.ok rhs_val, scope, state) =>
        match lhs with
        | .variable name index pos =>
          let index := if state.always_search then none else index
          match search_scope scope name index pos with
          | .error err => (.error err, scope, state)
          | .ok (_, _, .constant) =>
            (.error (.errorAssignmentToConstant name op_pos), scope, state)
          | .ok (i, _, .normal) => (.ok .unit, scope.set_value_at i rhs_val, state)
        | .index idx_lhs idx_expr idx_op_pos =>
          eval_dot_index_chain e fuel fn_lib scope state idx_lhs idx_expr true
            idx_op_pos level (some rhs_val)
        | .dot dot_lhs dot_rhs _ =>
          eval_dot_index_chain e fuel fn_lib scope state dot_lhs dot_rhs false
            op_pos level (some rhs_val)
        | lhs_expr =>
          if lhs_expr.is_constant then
            (.error (.errorAssignmentToConstant lhs_expr.get_constant_str lhs_expr.position),
              scope, state)
          else
            (.error (.errorAssignmentToUnknownLHS lhs_expr.position), scope, state)
    | .index lhs idx_expr op_pos =>
      eval_dot_index_chain e fuel fn_lib scope state lhs idx_expr true op_pos level none
    | .dot lhs dot_rhs op_pos =>
      eval_dot_index_chain e fuel fn_lib scope state lhs dot_rhs false op_pos level none
    | .array contents _ =>
      match eval_exprs e fuel fn_lib scope state contents level with
      | (.error err, scope, state) => (.error err, scope, state)
      | (.ok vals, scope, state) => (.ok (.array vals), scope, state)
    | .mapE contents _ =>
      match eval_map_items e fuel fn_lib scope state contents level with
      | (.error err, scope, state) => (.error err, scope, state)
      | (.ok kvs, scope, state) =>
        (.ok (.map (kvs.foldl (fun acc kv => map_insert acc kv.1 kv.2) [])), scope, state)
    | .fnCall fn_name arg_exprs def_val pos =>
      match eval_exprs e fuel fn_lib scope state arg_exprs level with
      | (.error err, scope, state) => (.error err, scope, state)
      | (.ok arg_values, scope, state) =>
        if fn_name = KEYWORD_EVAL ∧ arg_values.length = 1 ∧
            ¬has_override e fn_lib KEYWORD_EVAL then
          let prev_len := scope.len
          let (result, scope2) :=
            eval_script_expr e fuel fn_lib scope (arg_values.headD .unit)
              ((arg_exprs.headD (.unit 0)).position)
          let state2 :=
            if scope2.len ≠ prev_len then { state with always_search := true } else state
          (result, scope2, state2)
        else
          ((exec_fn_call e fuel fn_lib fn_name arg_values def_val pos level).1, scope, state)
    | .inE lhs rhs _ =>
      match eval_expr e fuel fn_lib scope state lhs level with
      | (.error err, scope, state) => (.error err, scope, state)
      | (.ok lhs_value, scope, state) =>
        match eval_expr e fuel fn_lib scope state rhs level with
        | (.error err, scope, state) => (.error err, scope, state)
        | (.ok rhs_value, scope, state) =>
          match rhs_value with
          | .array items =>
            match eval_in_array e fuel fn_lib lhs_value items rhs.position level with
            | .error err => (.error err, scope, state)
            | .ok b => (.ok (.bool b), scope, state)
          | .map m =>
            match lhs_value with
            | .str s => (.ok (.bool (map_get m s).isSome), scope, state)
            | .char c => (.ok (.bool (map_get m (String.mk [c])).isSome), scope, state)
            | _ => (.error (.errorInExpr lhs.position), scope, state)
          | .str rs =>
            match lhs_value with
            | .str s => (.ok (.bool (contains_seq rs.data s.data)), scope, state)
            | .char c => (.ok (.bool (rs.contains c)), scope, state)
            | _ => (.error (.errorInExpr lhs.position), scope, state)
          | _ => (.error (.errorInExpr rhs.position), scope, state)
    | .and lhs rhs _ =>
      match eval_expr e fuel fn_lib scope state lhs level with
      | (.error err, scope, state) => (.error err, scope, state)
      | (.ok v, scope, state) =>
        match v.as_bool with
        | .error _ => (.error (.errorBooleanArgMismatch "AND" lhs.position), scope, state)
        | .ok false => (.ok (.bool false), scope, state)
        | .ok true =>
          match eval_expr e fuel fn_lib scope state rhs level with
          | (.error err, scope, state) => (.error err, scope, state)
          | (.ok v2, scope, state) =>
            match v2.as_bool with
            | .error _ =>
              (.error (.errorBooleanArgMismatch "AND" rhs.position), scope, state)
            | .ok b => (.ok (.bool b), scope, state)
    | .or lhs rhs _ =>
      match eval_expr e fuel fn_lib scope state lhs level with
      | (.error err, scope, state) => (.error err, scope, state)
      | (.ok v, scope, state) =>
        match v.as_bool with
        | .error _ => (.error (.errorBooleanArgMismatch "OR" lhs.position), scope, state)
        | .ok true => (.ok (.bool true), scope, state)
        | .ok false =>
          match eval_expr e fuel fn_lib scope state rhs level with
          | (.error err, scope, state) => (.error err, scope, state)
          | (.ok v2, scope, state) =>
            match v2.as_bool with
            | .error _ =>
              (.error (.errorBooleanArgMismatch "OR" rhs.position), scope, state)
            | .ok b => (.ok (.bool b), scope, state)
    | .trueE _ => (.ok (.bool true), scope, state)
    | .falseE _ => (.ok (.bool false), scope, state)
    | .unit _ => (.ok .unit, scope, state)
termination_by structural fuel

/-- The `==`-scan of `eval_in_expr` over an array, through normal dispatch
with a `false` default. -/
def eval_in_array (e : Engine) (fuel : Nat) (fn_lib : FunctionsLib)
    (lhs_value : Dynamic) (items : List Dynamic) (pos : Pos) (level : Nat) :
    Except EvalError Bool :=
  match fuel with
  | 0 => .error .outOfFuel
  | fuel + 1 =>
    match items with
    | [] => .ok false
    | value :: rest =>
      match call_fn_raw e fuel fn_lib none "==" [lhs_value, value]
          (some (.bool false)) pos level with
      | (.error err, _, _) => .error err
      | (.ok r, _, _) =>
        match r.as_bool with
        | .ok true => .ok true
        | _ => eval_in_array e fuel fn_lib lhs_value rest pos level
termination_by structural fuel

/-- Evaluation of an expression list in source order (argument and array
literal evaluation). -/
def eval_exprs (e : Engine) (fuel : Nat) (fn_lib : FunctionsLib) (scope : Scope)
    (state : State) (exprs : List Expr) (level : Nat) :
    Except EvalError (List Dynamic) × Scope × State :=
  match fuel with
  | 0 => (.error .outOfFuel, scope, state)
  | fuel + 1 =>
    match exprs with
    | [] => (.ok [], scope, state)
    | ex :: rest =>
      match eval_expr e fuel fn_lib scope state ex level with
      | (.error err, scope, state) => (.error err, scope, state)
      | (.ok v, scope, state) =>
        match eval_exprs e fuel fn_lib scope state rest level with
        | (.error err, scope, state) => (.error err, scope, state)
        | (.ok vs, scope, state) => (.ok (v :: vs), scope, state)
termination_by structural fuel

/-- Evaluation of map-literal items in source order. -/
def eval_map_items (e : Engine) (fuel : Nat) (fn_lib : FunctionsLib) (scope : Scope)
    (state : State) (items : List (String × Expr × Pos)) (level : Nat) :
    Except EvalError (List (String × Dynamic)) × Scope × State :=
  match fuel with
  | 0 => (.error .outOfFuel, scope, state)
  | fuel + 1 =>
    match items with
    | [] => (.ok [], scope, state)
    | (key, ex, _) :: rest =>
      match eval_expr e fuel fn_lib scope state ex level with
      | (.error err, scope, state) => (.error err, scope, state)
      | (.ok v, scope, state) =>
        match eval_map_items e fuel fn_lib scope state rest level with
        | (.error err, scope, state) => (.error err, scope, state)
        | (.ok kvs, scope, state) => (.ok ((key, v) :: kvs), scope, state)
termination_by structural fuel

/-- `Engine::eval_stmt`. -/
def eval_stmt (e : Engine) (fuel : Nat) (fn_lib : FunctionsLib) (scope : Scope)
    (state : State) (stmt : Stmt) (level : Nat) : EvalResult :=
  match fuel with
  | 0 => (.error .outOfFuel, scope, state)
  | fuel + 1 =>
    match stmt with
    | .noop _ => (.ok .unit, scope, state)
    | .exprS expr =>
      match eval_expr e fuel fn_lib scope state expr level with
      | (.error err, scope, state) => (.error err, scope, state)
      | (.ok result, scope, state) =>
        (match expr with
         | .assignment _ _ _ => .ok .unit
         | _ => .ok result, scope, state)
    | .block stmts _ =>
      let prev_len := scope.len
      match eval_stmts e fuel fn_lib scope state stmts level with
      | (result, scope, state) =>
        (result, scope.rewind prev_len, { state with always_search := false })
    | .ifThenElse guard if_body else_body =>
      match eval_expr e fuel fn_lib scope state guard level with
      | (.error err, scope, state) => (.error err, scope, state)
      | (.ok gv, scope, state) =>
        match gv.as_bool with
        | .error _ => (.error (.errorLogicGuard guard.position), scope, state)
        | .ok true => eval_stmt e fuel fn_lib scope state if_body level
        | .ok false =>
          match else_body with
          | some s => eval_stmt e fuel fn_lib scope state s level
          | none => (.ok .unit, scope, state)
    | .whileS guard body =>
      match eval_expr e fuel fn_lib scope state guard level with
      | (.error err, scope, state) => (.error err, scope, state)
      | (.ok gv, scope, state) =>
        match gv.as_bool with
        | .error _ => (.error (.errorLogicGuard guard.position), scope, state)
        | .ok false => (.ok .unit, scope, state)
        | .ok true =>
          match eval_stmt e fuel fn_lib scope state body level with
          | (.ok _, scope, state) =>
            eval_stmt e fuel fn_lib scope state (.whileS guard body) level
          | (.error (.errorLoopBreak false _), scope, state) =>
            eval_stmt e fuel fn_lib scope state (.whileS guard body) level
          | (.error (.errorLoopBreak true _), scope, state) => (.ok .unit, scope, state)
          | (.error err, scope, state) => (.error err, scope, state)
    | .loop body =>
      match eval_stmt e fuel fn_lib scope state body level with
      | (.ok _, scope, state) => eval_stmt e fuel fn_lib scope state (.loop body) level
      | (.error (.errorLoopBreak false _), scope, state) =>
        eval_stmt e fuel fn_lib scope state (.loop body) level
      | (.error (.errorLoopBreak true _), scope, state) => (.ok .unit, scope, state)
      | (.error err, scope, state) => (.error err, scope, state)
    | .forS name range body =>
      match eval_expr e fuel fn_lib scope state range level with
      | (.error err, scope, state) => (.error err, scope, state)
      | (.ok arr, scope, state) =>
        match iterator_get e arr.type_id with
        | none => (.error (.errorFor range.position), scope, state)
        | some iter_fn =>
          let scope := scope.push name .unit
          let index := scope.len - 1
          match eval_for_loop e fuel fn_lib scope state index (iter_fn arr) body level with
          | (.error err, scope, state) => (.error err, scope, state)
          | (.ok _, scope, state) => (.ok .unit, scope.rewind (scope.len - 1), state)
    | .continueS pos => (.error (.errorLoopBreak false pos), scope, state)
    | .breakS pos => (.error (.errorLoopBreak true pos), scope, state)
    | .returnWithVal none .normal pos => (.error (.ret .unit pos), scope, state)
    | .returnWithVal (some a) .normal pos =>
      match eval_expr e fuel fn_lib scope state a level with
      | (.error err, scope, state) => (.error err, scope, state)
      | (.ok v, scope, state) => (.error (.ret v pos), scope, state)
    | .returnWithVal none .exception pos => (.error (.errorRuntime "" pos), scope, state)
    | .returnWithVal (some a) .exception pos =>
      match eval_expr e fuel fn_lib scope state a level with
      | (.error err, scope, state) => (.error err, scope, state)
      | (.ok v, scope, state) =>
        (.error (.errorRuntime ((v.take_string.toOption).getD "") pos), scope, state)
    | .letS name (some expr) _ =>
      match eval_expr e fuel fn_lib scope state expr level with
      | (.error err, scope, state) => (.error err, scope, state)
      | (.ok val, scope, state) =>
        (.ok .unit, scope.push_dynamic_value name .normal val none, state)
    | .letS name none _ => (.ok .unit, scope.push name .unit, state)
    | .constS name expr _ =>
      if expr.is_constant then
        match eval_expr e fuel fn_lib scope state expr level with
        | (.error err, scope, state) => (.error err, scope, state)
        | (.ok val, scope, state) =>
          (.ok .unit,
            scope.push_dynamic_value name .constant val (map_dynamic_to_expr val 0), state)
      else
        (.error (.panic "unreachable: non-constant const initializer"), scope, state)
termination_by structural fuel

/-- Sequential statement evaluation returning the last value (`try_fold` of
`Stmt::Block` and of `eval_ast_with_scope_raw`). -/
def eval_stmts (e : Engine) (fuel : Nat) (fn_lib : FunctionsLib) (scope : Scope)
    (state : State) (stmts : List Stmt) (level : Nat) : EvalResult :=
  match fuel with
  | 0 => (.error .outOfFuel, scope, state)
  | fuel + 1 =>
    match stmts with
    | [] => (.ok .unit, scope, state)
    | stmt :: rest =>
      match eval_stmt e fuel fn_lib scope state stmt level with
      | (.error err, scope, state) => (.error err, scope, state)
      | (.ok v, scope, state) =>
        match rest with
        | [] => (.ok v, scope, state)
        | _ => eval_stmts e fuel fn_lib scope state rest level
termination_by structural fuel

/-- The iteration of `Stmt::For`: overwrite the loop slot, run the body,
honour continue/break. An error propagates without the final rewind (the
source returns early). -/
def eval_for_loop (e : Engine) (fuel : Nat) (fn_lib : FunctionsLib) (scope : Scope)
    (state : State) (index : Nat) (items : List Dynamic) (body : Stmt) (level : Nat) :
    EvalResult :=
  match fuel with
  | 0 => (.error .outOfFuel, scope, state)
  | fuel + 1 =>
    match items with
    | [] => (.ok .unit, scope, state)
    | a :: rest =>
      let scope := scope.set_value_at index a
      match eval_stmt e fuel fn_lib scope state body level with
      | (.ok _, scope, state) =>
        eval_for_loop e fuel fn_lib scope state index rest body level
      | (.error (.errorLoopBreak false _), scope, state) =>
        eval_for_loop e fuel fn_lib scope state index rest body level
      | (.error (.errorLoopBreak true _), scope, state) => (.ok .unit, scope, state)
      | (.error err, scope, state) => (.error err, scope, state)
termination_by structural fuel

/-- `Engine::eval_dot_index_chain`: pre-evaluate the index values, resolve
the LHS (scope slot for a variable — writing to a constant is refused;
temporary otherwise — writing to it is `ErrorAssignmentToUnknownLHS`), run
the helper and store the final place value back into the slot. -/
def eval_dot_index_chain (e : Engine) (fuel : Nat) (fn_lib : FunctionsLib)
    (scope : Scope) (state : State) (dot_lhs dot_rhs : Expr) (is_index : Bool)
    (op_pos : Pos) (level : Nat) (new_val : Option Dynamic) : EvalResult :=
  match fuel with
  | 0 => (.error .outOfFuel, scope, state)
  | fuel + 1 =>
    match eval_indexed_chain e fuel fn_lib scope state dot_rhs [] level with
    | (.error err, scope, state, _) => (.error err, scope, state)
    | (.ok _, scope, state, idx_values) =>
      match dot_lhs with
      | .variable id index pos =>
        let index := if state.always_search then none else index
        match search_scope scope id index pos with
        | .error err => (.error err, scope, state)
        | .ok (i, target, typ) =>
          if typ = .constant ∧ new_val.isSome then
            (.error (.errorAssignmentToConstant id pos), scope, state)
          else
            match eval_dot_index_chain_helper e fuel fn_lib target dot_rhs idx_values
                is_index op_pos level new_val with
            | .error err => (.error err, scope, state)
            | .ok (result, new_target, _) =>
              (.ok result, scope.set_value_at i new_target, state)
      | expr =>
        if new_val.isSome then
          (.error (.errorAssignmentToUnknownLHS expr.position), scope, state)
        else
          match eval_expr e fuel fn_lib scope state expr level with
          | (.error err, scope, state) => (.error err, scope, state)
          | (.ok val, scope, state) =>
            match eval_dot_index_chain_helper e fuel fn_lib val dot_rhs idx_values
                is_index op_pos level new_val with
            | .error err => (.error err, scope, state)
            | .ok (result, _, _) => (.ok result, scope, state)
termination_by structural fuel

/-- `Engine::eval_indexed_chain`: pre-evaluate index/argument
sub-expressions left-to-right, pushing onto the index stack in reverse
order (`StaticVec` push; the head of the list is the top). -/
def eval_indexed_chain (e : Engine) (fuel : Nat) (fn_lib : FunctionsLib)
    (scope : Scope) (state : State) (expr : Expr) (idx_values : List Dynamic)
    (level : Nat) : Except EvalError Unit × Scope × State × List Dynamic :=
  match fuel with
  | 0 => (.error .outOfFuel, scope, state, idx_values)
  | fuel + 1 =>
    match expr with
    | .fnCall _ arg_exprs _ _ =>
      match eval_exprs e fuel fn_lib scope state arg_exprs level with
      | (.error err, scope, state) => (.error err, scope, state, idx_values)
      | (.ok arg_values, scope, state) =>
        (.ok (), scope, state, Dynamic.array arg_values :: idx_values)
    | .property _ _ => (.ok (), scope, state, Dynamic.unit :: idx_values)
    | .index lhs rhs _ | .dot lhs rhs _ =>
      match
        (match lhs with
         | .property _ _ => (.ok Dynamic.unit, scope, state)
         | _ => eval_expr e fuel fn_lib scope state lhs level : EvalResult) with
      | (.error err, scope, state) => (.error err, scope, state, idx_values)
      | (.ok lhs_val, scope, state) =>
        match eval_indexed_chain e fuel fn_lib scope state rhs idx_values level with
        | (.error err, scope, state, iv) => (.error err, scope, state, iv)
        | (.ok _, scope, state, iv) => (.ok (), scope, state, lhs_val :: iv)
    | _ =>
      match eval_expr e fuel fn_lib scope state expr level with
      | (.error err, scope, state) => (.error err, scope, state, idx_values)
      | (.ok v, scope, state) => (.ok (), scope, state, v :: idx_values)
termination_by structural fuel

/-- `Engine::eval_dot_index_chain_helper`: walk the chain spine over the
current place. Returns the chain result, the final value of the place (the
in-place mutations through the borrow) and the rest of the index stack. -/
def eval_dot_index_chain_helper (e : Engine) (fuel : Nat) (fn_lib : FunctionsLib)
    (target : Dynamic) (rhs : Expr) (idx_values : List Dynamic) (is_index : Bool)
    (op_pos : Pos) (level : Nat) (new_val : Option Dynamic) :
    Except EvalError (Dynamic × Dynamic × List Dynamic) :=
  match fuel with
  | 0 => .error .outOfFuel
  | fuel + 1 =>
    -- Pop the last index value (`StaticVec::pop` panics when empty)
    match idx_values with
    | [] => .error (.panic "StaticVec pop on empty stack")
    | idx_val :: idx_values =>
      if is_index then
        match rhs with
        | .dot idx idx_rhs pos =>
          match get_indexed_mut e target idx_val idx.position op_pos false with
          | .error err => .error err
          | .ok (elem, _, write_back) =>
            match eval_dot_index_chain_helper e fuel fn_lib elem idx_rhs idx_values
                false pos level new_val with
            | .error err => .error err
            | .ok (result, new_elem, iv) => .ok (result, write_back new_elem, iv)
        | .index idx idx_rhs pos =>
          match get_indexed_mut e target idx_val idx.position op_pos false with
          | .error err => .error err
          | .ok (elem, _, write_back) =>
            match eval_dot_index_chain_helper e fuel fn_lib elem idx_rhs idx_values
                true pos level new_val with
            | .error err => .error err
            | .ok (result, new_elem, iv) => .ok (result, write_back new_elem, iv)
        | _ =>
          match new_val with
          | some nv =>
            match get_indexed_mut e target idx_val rhs.position op_pos true with
            | .error err => .error err
            | .ok (_, _, write_back) => .ok (.unit, write_back nv, idx_values)
          | none =>
            match get_indexed_mut e target idx_val rhs.position op_pos false with
            | .error err => .error err
            | .ok (elem, target2, _) => .ok (elem, target2, idx_values)
      else
        match rhs with
        | .fnCall fn_name _ def_val pos =>
          match idx_val with
          | .array arg_vec =>
            match exec_fn_call e fuel fn_lib fn_name (target :: arg_vec) def_val pos 0 with
            | (.error err, _) => .error err
            | (.ok result, post_args) =>
              -- A function call is assumed to have side effects on the place
              .ok (result, post_args.headD target, idx_values)
          | _ => .error (.panic "argument vector downcast failed")
        | .property id pos =>
          if target.is_map then
            match new_val with
            | some nv =>
              match get_indexed_mut e target (.str id) pos op_pos true with
              | .error err => .error err
              | .ok (_, _, write_back) => .ok (.unit, write_back nv, idx_values)
            | none =>
              match get_indexed_mut e target (.str id) pos op_pos false with
              | .error err => .error err
              | .ok (elem, target2, _) => .ok (elem, target2, idx_values)
          else
            match new_val with
            | some nv =>
              match exec_fn_call e fuel fn_lib (make_setter id) [target, nv] none pos 0 with
              | (.error err, _) => .error err
              | (.ok _, post_args) => .ok (.unit, post_args.headD target, idx_values)
            | none =>
              match exec_fn_call e fuel fn_lib (make_getter id) [target] none pos 0 with
              | (.error err, _) => .error err
              | (.ok result, post_args) => .ok (result, post_args.headD target, idx_values)
        | .index dot_lhs dot_rhs pos =>
          eval_dot_chain_nested e fuel fn_lib target dot_lhs dot_rhs idx_values true
            rhs.position pos op_pos level new_val
        | .dot dot_lhs dot_rhs pos =>
          eval_dot_chain_nested e fuel fn_lib target dot_lhs dot_rhs idx_values false
            rhs.position pos op_pos level new_val
        | _ => .error (.errorDotExpr "" rhs.position)
termination_by structural fuel

/-- The nested-chain arms of the dot-mode helper (`{xxx:map}.lhs.rhs` and
`xxx.lhs.rhs` on a non-map, which looks for a registered mut-getter and
otherwise falls back to the `get$` getter on a temporary, without any
write-back). -/
def eval_dot_chain_nested (e : Engine) (fuel : Nat) (fn_lib : FunctionsLib)
    (target : Dynamic) (dot_lhs dot_rhs : Expr) (idx_values : List Dynamic)
    (inner_is_index : Bool) (rhs_pos : Pos) (node_pos : Pos) (op_pos : Pos)
    (level : Nat) (new_val : Option Dynamic) :
    Except EvalError (Dynamic × Dynamic × List Dynamic) :=
  match fuel with
  | 0 => .error .outOfFuel
  | fuel + 1 =>
    if target.is_map then
      match dot_lhs with
      | .property id ppos =>
        match get_indexed_mut e target (.str id) ppos op_pos false with
        | .error err => .error err
        | .ok (elem, _, write_back) =>
          match eval_dot_index_chain_helper e fuel fn_lib elem dot_rhs idx_values
              inner_is_index node_pos level new_val with
          | .error err => .error err
          | .ok (result, new_elem, iv) => .ok (result, write_back new_elem, iv)
      | _ => .error (.errorDotExpr "" rhs_pos)
    else
      match dot_lhs with
      | .property id ppos =>
        -- Look for a mut_getter first
        match assoc_get e.mut_getters (make_mut_getter id, target.type_id) with
        | some mut_getter =>
          match mut_getter target with
          | some (sub, write_back) =>
            match eval_dot_index_chain_helper e fuel fn_lib sub dot_rhs idx_values
                inner_is_index ppos level new_val with
            | .error err => .error err
            | .ok (result, new_sub, iv) => .ok (result, write_back new_sub, iv)
          | none => .error (.panic "Hash collision maybe?")
        | none =>
          match new_val with
          | some _ =>
            -- We cannot get a pointer to the location we are assigning to
            .error (.panic "Some sort of error here")
          | none =>
            -- Fall back to a getter on a temporary; the temporary is not
            -- written back
            match exec_fn_call e fuel fn_lib (make_getter id) [target] none ppos 0 with
            | (.error err, _) => .error err
            | (.ok indexed_val, post_args) =>
              match eval_dot_index_chain_helper e fuel fn_lib indexed_val dot_rhs
                  idx_values inner_is_index ppos level new_val with
              | .error err => .error err
              | .ok (result, _, iv) => .ok (result, post_args.headD target, iv)
      | _ => .error (.errorDotExpr "" rhs_pos)
termination_by structural fuel

/-- `Engine::exec_fn_call`: special-case `type_of` and method-style `eval`,
then dispatch through `call_fn_raw` with no scope. Also returns the
argument values after the call (a script-function callee consumes them). -/
def exec_fn_call (e : Engine) (fuel : Nat) (fn_lib : FunctionsLib) (fn_name : String)
    (args : List Dynamic) (def_val : Option Dynamic) (pos : Pos) (level : Nat) :
    Except EvalError Dynamic × List Dynamic :=
  match fuel with
  | 0 => (.error .outOfFuel, args)
  | fuel + 1 =>
    if fn_name = KEYWORD_TYPE_OF ∧ args.length = 1 ∧
        ¬has_override e fn_lib KEYWORD_TYPE_OF then
      (.ok (.str (args.headD .unit).type_name), args)
    else if fn_name = KEYWORD_EVAL ∧ args.length = 1 ∧
        ¬has_override e fn_lib KEYWORD_EVAL then
      (.error (.errorRuntime "eval should not be called in method style. Try eval(...);" pos),
        args)
    else
      match call_fn_raw e fuel fn_lib none fn_name args def_val pos level with
      | (result, _, post_args) => (result, post_args)
termination_by structural fuel

/-- `Engine::call_fn_raw`: the dispatch pipeline. Stack-depth check first;
then script-defined functions by name and arity; then the engine table and
the packages (reverse load order) by name and argument type ids, with
print/debug post-processing; then the default value; then the synthetic
getter/setter/indexer diagnostics; else `ErrorFunctionNotFound`. -/
def call_fn_raw (e : Engine) (fuel : Nat) (fn_lib : FunctionsLib)
    (scope : Option Scope) (fn_name : String) (args : List Dynamic)
    (def_val : Option Dynamic) (pos : Pos) (level : Nat) :
    Except EvalError Dynamic × Option Scope × List Dynamic :=
  match fuel with
  | 0 => (.error .outOfFuel, scope, args)
  | fuel + 1 =>
    -- Check for stack overflow
    if level > e.max_call_stack_depth then
      (.error (.errorStackOverflow pos), scope, args)
    else
      -- First search in script-defined functions (can override built-in)
      match fn_lib.get_function fn_name args.length with
      | some fn_def => call_fn_from_lib e fuel fn_lib scope fn_def args pos level
      | none =>
        let fn_spec := (fn_name, args.map Dynamic.type_id)
        match
          (match assoc_get e.functions fn_spec with
           | some f => some f
           | none => package_fn_get e.packages fn_spec) with
        | some func =>
          match func args with
          | .error err => (.error err, scope, args)
          | .ok result =>
            if fn_name = KEYWORD_PRINT ∨ fn_name = KEYWORD_DEBUG then
              match result.as_str with
              | .ok _ => (.ok .unit, scope, args)
              | .error type_name =>
                (.error (.errorMismatchOutputType type_name pos), scope, args)
            else
              (.ok result, scope, args)
        | none =>
          match def_val with
          | some val => (.ok val, scope, args)
          | none =>
            match extract_prop_from_getter fn_name with
            | some prop =>
              (.error (.errorDotExpr ("- property " ++ prop ++ " unknown or write-only") pos),
                scope, args)
            | none =>
              match extract_prop_from_setter fn_name with
              | some prop =>
                (.error (.errorDotExpr ("- property " ++ prop ++ " unknown or read-only") pos),
                  scope, args)
              | none =>
                let types_list := String.intercalate ", " (args.map Dynamic.type_name)
                if fn_name = FUNC_INDEXER then
                  (.error (.errorFunctionNotFound ("[](" ++ types_list ++ ")") pos),
                    scope, args)
                else
                  (.error (.errorFunctionNotFound (fn_name ++ " (" ++ types_list ++ ")") pos),
                    scope, args)
termination_by structural fuel

/-- `Engine::call_fn_from_lib`: run a script-defined function. The
arguments are consumed (`mem::take` replaces each zipped argument by unit).
With a non-empty external scope: snapshot its length, extend with the
parameters as normal entries, evaluate the body at `level + 1` with a fresh
state, convert a `Return` sentinel, stamp the call position on other
errors, and rewind to the snapshot. Otherwise a fresh internal scope is
used and dropped. -/
def call_fn_from_lib (e : Engine) (fuel : Nat) (fn_lib : FunctionsLib)
    (scope : Option Scope) (fn_def : FnDef) (args : List Dynamic) (pos : Pos)
    (level : Nat) : Except EvalError Dynamic × Option Scope × List Dynamic :=
  match fuel with
  | 0 => (.error .outOfFuel, scope, args)
  | fuel + 1 =>
    -- mem::take consumes every argument zipped with a parameter
    let post_args := take_args fn_def.params args
    let param_entries :=
      (fn_def.params.zip args).map (fun p => (p.1, EntryType.normal, p.2))
    let unwind : Except EvalError Dynamic → Except EvalError Dynamic := fun result =>
      match result with
      | .ok v => .ok v
      | .error (.ret x _) => .ok x
      | .error err => .error (err.set_position pos)
    match scope with
    | some sc =>
      if sc.len > 0 then
        let scope_len := sc.len
        let sc := sc.extend param_entries
        match eval_stmt e fuel fn_lib sc State.new fn_def.body (level + 1) with
        | (result, sc, _) => (unwind result, some (sc.rewind scope_len), post_args)
      else
        match eval_stmt e fuel fn_lib (Scope.new.extend param_entries) State.new
            fn_def.body (level + 1) with
        | (result, _, _) => (unwind result, some sc, post_args)
    | none =>
      match eval_stmt e fuel fn_lib (Scope.new.extend param_entries) State.new
          fn_def.body (level + 1) with
      | (result, _, _) => (unwind result, none, post_args)
termination_by structural fuel

/-- `Engine::eval_script_expr`: evaluate a string as a script (the heart of
function-call-style `eval`). Compile with no optimization; refuse scripts
that define functions (`WrongFnDefinition`); then run the statements with
the caller's function library in the caller's scope
(`eval_ast_with_scope_raw` is external api code: modelled from the spec as
sequential top-level statement evaluation with a fresh state at depth 0),
stamping the eval position onto an error. -/
def eval_script_expr (e : Engine) (fuel : Nat) (fn_lib : FunctionsLib)
    (scope : Scope) (script : Dynamic) (pos : Pos) :
    Except EvalError Dynamic × Scope :=
  match fuel with
  | 0 => (.error .outOfFuel, scope)
  | fuel + 1 =>
    match script.as_str with
    | .error type_name => (.error (.errorMismatchOutputType type_name pos), scope)
    | .ok s =>
      match e.parse s with
      | .error perr => (.error perr, scope)
      | .ok (statements, fns) =>
        -- If new functions are defined within the eval string, it is an error
        if fns.length > 0 then
          (.error (.errorParsingWrongFnDefinition pos), scope)
        else
          match eval_stmts e fuel fn_lib scope State.new statements 0 with
          | (.error err, scope, _) => (.error (err.set_position pos), scope)
          | (.ok v, scope, _) => (.ok v, scope)
termination_by structural fuel

end

/-- Evaluate a compiled program (statement list plus script functions) in a
fresh scope, as `eval_ast_with_scope_raw` does for a fresh scope (external
api code: modelled from the spec, sequential statements at depth 0). -/
def eval_program (e : Engine) (fuel : Nat) (fns : List FnDef) (stmts : List Stmt) :
    EvalResult :=
  eval_stmts e fuel fns Scope.new State.new stmts 0

end Rhai

namespace Rhai

/-! ## The AST optimizer (src/optimize.rs) -/

/-- Level of optimization performed (`OptimizationLevel`). -/
inductive OptimizationLevel where
  | noneL
  | simple
  | full
  deriving DecidableEq, Repr

mutual

/-- Modelled from the spec: `Expr::is_pure` lives in the external parser
module ("drop pure statements except the last"; "strip trailing `let` whose
init (if any) is pure"): literals, variables and compound
literals/operators over pure parts are pure. -/
def Expr.is_pure : Expr → Bool
  | .array items _ => exprs_pure items
  | .mapE items _ => map_items_pure items
  | .index l r _ => l.is_pure && r.is_pure
  | .and l r _ => l.is_pure && r.is_pure
  | .or l r _ => l.is_pure && r.is_pure
  | .inE l r _ => l.is_pure && r.is_pure
  | .stmtE s _ => s.is_pure
  | .variable _ _ _ => true
  | e => e.is_constant

def exprs_pure : List Expr → Bool
  | [] => true
  | e :: rest => e.is_pure && exprs_pure rest

def map_items_pure : List (String × Expr × Pos) → Bool
  | [] => true
  | (_, e, _) :: rest => e.is_pure && map_items_pure rest

/-- Modelled from the spec: `Stmt::is_pure` (external parser module). -/
def Stmt.is_pure : Stmt → Bool
  | .noop _ => true
  | .exprS e => e.is_pure
  | .ifThenElse guard if_body (some else_body) =>
    guard.is_pure && if_body.is_pure && else_body.is_pure
  | .ifThenElse guard body none => guard.is_pure && body.is_pure
  | .whileS guard body => guard.is_pure && body.is_pure
  | .loop body => body.is_pure
  | .forS _ range body => range.is_pure && body.is_pure
  | .letS _ _ _ => false
  | .constS _ _ _ => false
  | .block stmts _ => stmts_pure stmts
  | .continueS _ => false
  | .breakS _ => false
  | .returnWithVal _ _ _ => false

def stmts_pure : List Stmt → Bool
  | [] => true
  | s :: rest => s.is_pure && stmts_pure rest

end

/-- Modelled from the spec: `Expr::set_position` (external parser module):
replace the position of the top node. -/
def Expr.set_position (e : Expr) (p : Pos) : Expr :=
  match e with
  | .integerConstant i _ => .integerConstant i p
  | .stringConstant s _ => .stringConstant s p
  | .charConstant c _ => .charConstant c p
  | .variable n idx _ => .variable n idx p
  | .property n _ => .property n p
  | .stmtE s _ => .stmtE s p
  | .assignment l r _ => .assignment l r p
  | .dot l r _ => .dot l r p
  | .index l r _ => .index l r p
  | .array items _ => .array items p
  | .mapE items _ => .mapE items p
  | .fnCall n a d _ => .fnCall n a d p
  | .inE l r _ => .inE l r p
  | .and l r _ => .and l r p
  | .or l r _ => .or l r p
  | .trueE _ => .trueE p
  | .falseE _ => .falseE p
  | .unit _ => .unit p

/-- Mutable state throughout an optimization pass (`State` of
src/optimize.rs). -/
structure OptState where
  changed : Bool
  constants : List (String × Expr)
  fn_lib : List (String × Nat)
  optimization_level : OptimizationLevel
  deriving Repr

namespace OptState

def set_dirty (s : OptState) : OptState := { s with changed := true }

def is_dirty (s : OptState) : Bool := s.changed

def reset (s : OptState) : OptState := { s with changed := false }

def contains_constant (s : OptState) (name : String) : Bool :=
  s.constants.any fun c => c.1 = name

def restore_constants (s : OptState) (len : Nat) : OptState :=
  { s with constants := s.constants.take len }

def push_constant (s : OptState) (name : String) (value : Expr) : OptState :=
  { s with constants := s.constants ++ [(name, value)] }

/-- Look up a constant, scanning from the newest. -/
def find_constant (s : OptState) (name : String) : Option Expr :=
  (s.constants.reverse.find? fun c => c.1 = name).map Prod.snd

end OptState

/-- The optimizer's own `call_fn`: dispatch a registered function (engine
table first, then packages in reverse load order); `none` when the function
is unknown. -/
def optimize_call_fn (packages : List PackageStore)
    (functions : List ((String × List TypeId) × NativeFn)) (fn_name : String)
    (args : List Dynamic) : Except EvalError (Option Dynamic) :=
  let hash := (fn_name, args.map Dynamic.type_id)
  match
    (match assoc_get functions hash with
     | some f => some f
     | none => package_fn_get packages hash) with
  | none => .ok none
  | some func =>
    match func args with
    | .ok v => .ok (some v)
    | .error err => .error err

/-- Strip trailing `let` statements whose initializer (if any) is pure
(the `while let Some(expr) = result.pop()` loop of the `Stmt::Block` arm),
given the reversed statement list. Returns the stripped reversed list and
whether anything was removed. -/
def strip_rev_lets : List Stmt → List Stmt × Bool
  | [] => ([], false)
  | s :: rest =>
    match s with
    | .letS _ none _ => (strip_rev_lets rest).1 |> fun l => (l, true)
    | .letS n (some val_expr) p =>
      if val_expr.is_pure then ((strip_rev_lets rest).1, true)
      else (.letS n (some val_expr) p :: rest, false)
    | s => (s :: rest, false)

/-- Remove everything following the first `return`/`break` (the dead-code
`retain` of the `Stmt::Block` arm). -/
def truncate_after_exit : List Stmt → List Stmt
  | [] => []
  | s :: rest =>
    match s with
    | .returnWithVal v rt p => [.returnWithVal v rt p]
    | .breakS p => [.breakS p]
    | _ => s :: truncate_after_exit rest

/-- `retain` of non-pure statements. -/
def retain_impure (stmts : List Stmt) : List Stmt :=
  stmts.filter fun s => !s.is_pure

end Rhai

namespace Rhai

/-- Are all expressions constants? -/
def exprs_constant (l : List Expr) : Bool := l.all Expr.is_constant

mutual

/-- `optimize_stmt` (src/optimize.rs): one rewriting pass over a statement,
threading the optimizer state. `fuel` only bounds the re-optimization of
rewritten sub-trees; exhausting it returns the tree unchanged. -/
def optimize_stmt (e : Engine) (fuel : Nat) (stmt : Stmt) (state : OptState)
    (preserve_result : Bool) : Stmt × OptState :=
  match fuel with
  | 0 => (stmt, state)
  | fuel + 1 =>
    match stmt with
    -- if expr { Noop }
    | .ifThenElse expr (.noop npos) none =>
      let state := state.set_dirty
      let pos := expr.position
      let (expr2, state) := optimize_expr e fuel expr state
      if preserve_result then
        (.block [.exprS expr2, .noop npos] pos, state)
      else
        (.exprS expr2, state)
    -- if expr { if_block }
    | .ifThenElse expr if_body none =>
      match expr with
      | .falseE fpos => (.noop fpos, state.set_dirty)
      | .trueE _ => optimize_stmt e fuel if_body state true
      | expr =>
        let (expr2, state) := optimize_expr e fuel expr state
        let (body2, state) := optimize_stmt e fuel if_body state true
        (.ifThenElse expr2 body2 none, state)
    -- if expr { if_block } else { else_block }
    | .ifThenElse expr if_body (some else_body) =>
      match expr with
      | .falseE _ => optimize_stmt e fuel else_body state true
      | .trueE _ => optimize_stmt e fuel if_body state true
      | expr =>
        let (expr2, state) := optimize_expr e fuel expr state
        let (if2, state) := optimize_stmt e fuel if_body state true
        let (else2, state) := optimize_stmt e fuel else_body state true
        match else2 with
        | .noop _ => (.ifThenElse expr2 if2 none, state)
        | s => (.ifThenElse expr2 if2 (some s), state)
    -- while expr { block }
    | .whileS expr body =>
      match expr with
      | .falseE fpos => (.noop fpos, state.set_dirty)
      | .trueE _ =>
        let (body2, state) := optimize_stmt e fuel body state false
        (.loop body2, state)
      | expr =>
        let (body2, state) := optimize_stmt e fuel body state false
        match body2 with
        | .breakS bpos =>
          -- Only a single break statement - turn into running the guard once
          let state := state.set_dirty
          let (expr2, state) := optimize_expr e fuel expr state
          let statements :=
            if preserve_result then [Stmt.exprS expr2, Stmt.noop bpos]
            else [Stmt.exprS expr2]
          (.block statements bpos, state)
        | body2 =>
          let (expr2, state) := optimize_expr e fuel expr state
          (.whileS expr2 body2, state)
    -- loop { block }
    | .loop body =>
      match optimize_stmt e fuel body state false with
      | (.breakS bpos, state) => (.noop bpos, state.set_dirty)
      | (body2, state) => (.loop body2, state)
    -- for id in expr { block }
    | .forS id expr body =>
      let (expr2, state) := optimize_expr e fuel expr state
      let (body2, state) := optimize_stmt e fuel body state false
      (.forS id expr2 body2, state)
    -- let id = expr;
    | .letS id (some expr) pos =>
      let (expr2, state) := optimize_expr e fuel expr state
      (.letS id (some expr2) pos, state)
    -- let id;
    | .letS id none pos => (.letS id none pos, state)
    -- { block }
    | .block blk pos =>
      let orig_len := blk.length
      let orig_constants_len := state.constants.length
      let (result, state) := optimize_block_items e fuel blk state preserve_result
      -- Remove pure expression statements except the very last
      let (result, last_stmt) :=
        if preserve_result then (result.dropLast, result.getLast?)
        else (result, (none : Option Stmt))
      let result := retain_impure result ++ last_stmt.toList
      -- Remove trailing let statements with pure initializers
      let (rev_stripped, removed) := strip_rev_lets result.reverse
      let result := rev_stripped.reverse
      let (result, state) :=
        if preserve_result then
          let result := if removed then result ++ [Stmt.noop pos] else result
          -- Optimize all the statements again
          let (rev2, state) := optimize_rev_stmts e fuel result.reverse state true
          (rev2.reverse, state)
        else (result, state)
      -- Remove everything following the first return/break
      let result := truncate_after_exit result
      let state := if orig_len ≠ result.length then state.set_dirty else state
      let state := state.restore_constants orig_constants_len
      match result with
      | [] => (.noop pos, state.set_dirty)
      | [s] => (s, state.set_dirty)
      | _ => (.block result pos, state)
    -- expr;
    | .exprS expr =>
      let (expr2, state) := optimize_expr e fuel expr state
      (.exprS expr2, state)
    -- return expr;
    | .returnWithVal (some expr) rt pos =>
      let (expr2, state) := optimize_expr e fuel expr state
      (.returnWithVal (some expr2) rt pos, state)
    -- All other statements - skip
    | stmt => (stmt, state)
termination_by structural fuel

/-- The statement mapping of the `Stmt::Block` arm: a `const` declaration
becomes a `Noop` after recording the constant; others are optimized. -/
def optimize_block_items (e : Engine) (fuel : Nat) (stmts : List Stmt)
    (state : OptState) (preserve_result : Bool) : List Stmt × OptState :=
  match fuel with
  | 0 => (stmts, state)
  | fuel + 1 =>
    match stmts with
    | [] => ([], state)
    | stmt :: rest =>
      let (s2, state) :=
        match stmt with
        | .constS name value cpos =>
          (Stmt.noop cpos, (state.push_constant name value).set_dirty)
        | s => optimize_stmt e fuel s state preserve_result
      let (rest2, state) := optimize_block_items e fuel rest state preserve_result
      (s2 :: rest2, state)
termination_by structural fuel

/-- The re-optimization pass of the `Stmt::Block` arm, fed the reversed
statement list; only the first element (the last statement) preserves its
result. -/
def optimize_rev_stmts (e : Engine) (fuel : Nat) (stmts : List Stmt)
    (state : OptState) (first : Bool) : List Stmt × OptState :=
  match fuel with
  | 0 => (stmts, state)
  | fuel + 1 =>
    match stmts with
    | [] => ([], state)
    | s :: rest =>
      let (s2, state) := optimize_stmt e fuel s state first
      let (rest2, state) := optimize_rev_stmts e fuel rest state false
      (s2 :: rest2, state)
termination_by structural fuel

/-- `optimize_expr` (src/optimize.rs). -/
def optimize_expr (e : Engine) (fuel : Nat) (expr : Expr) (state : OptState) :
    Expr × OptState :=
  match fuel with
  | 0 => (expr, state)
  | fuel + 1 =>
    match expr with
    -- ( stmt )
    | .stmtE stmt pos =>
      match optimize_stmt e fuel stmt state true with
      | (.noop _, state) => (.unit pos, state.set_dirty)
      | (.exprS ex, state) => (ex, state.set_dirty)
      | (stmt2, state) => (.stmtE stmt2 pos, state)
    -- id = expr
    | .assignment id ex pos =>
      match ex with
      | .assignment id2 expr2 pos2 =>
        match id, id2 with
        | .variable var sp vpos, .variable var2 sp2 vpos2 =>
          if var = var2 ∧ sp = sp2 then
            -- Assignment to the same variable - fold
            let state := state.set_dirty
            let (e2, state) := optimize_expr e fuel expr2 state
            (.assignment (.variable var sp pos) e2 pos, state)
          else
            let (e2, state) := optimize_expr e fuel expr2 state
            (.assignment (.variable var sp vpos)
              (.assignment (.variable var2 sp2 vpos2) e2 pos2) pos, state)
        | id1, id2 =>
          let (e2, state) := optimize_expr e fuel expr2 state
          (.assignment id1 (.assignment id2 e2 pos2) pos, state)
      | ex =>
        let (e2, state) := optimize_expr e fuel ex state
        (.assignment id e2 pos, state)
    -- lhs.rhs
    | .dot lhs rhs pos =>
      match lhs, rhs with
      | .mapE items mpos, .property s spos =>
        if map_items_pure items then
          -- Map literal where everything is pure - promote the indexed item
          let state := state.set_dirty
          (match items.find? (fun it => it.1 = s) with
           | some it => it.2.1.set_position mpos
           | none => .unit mpos, state)
        else
          let (l2, state) := optimize_expr e fuel (.mapE items mpos) state
          let (r2, state) := optimize_expr e fuel (.property s spos) state
          (.dot l2 r2 pos, state)
      | lhs, rhs =>
        let (l2, state) := optimize_expr e fuel lhs state
        let (r2, state) := optimize_expr e fuel rhs state
        (.dot l2 r2 pos, state)
    -- lhs[rhs]
    | .index lhs rhs pos =>
      match lhs, rhs with
      | .array items apos, .integerConstant i ipos =>
        if 0 ≤ i ∧ i < items.length ∧ exprs_pure items then
          -- Array literal where everything is pure - promote the indexed item
          let state := state.set_dirty
          (((items.get? i.toNat).getD (.unit apos)).set_position apos, state)
        else
          let (l2, state) := optimize_expr e fuel (.array items apos) state
          let (r2, state) := optimize_expr e fuel (.integerConstant i ipos) state
          (.index l2 r2 pos, state)
      | .mapE items mpos, .stringConstant s spos =>
        if map_items_pure items then
          let state := state.set_dirty
          (match items.find? (fun it => it.1 = s) with
           | some it => it.2.1.set_position mpos
           | none => .unit mpos, state)
        else
          let (l2, state) := optimize_expr e fuel (.mapE items mpos) state
          let (r2, state) := optimize_expr e fuel (.stringConstant s spos) state
          (.index l2 r2 pos, state)
      | .stringConstant s spos, .integerConstant i ipos =>
        if 0 ≤ i ∧ i.toNat < s.length then
          -- String literal indexing - get the character
          let state := state.set_dirty
          (.charConstant ((s.data.get? i.toNat).getD ' ') spos, state)
        else
          let (l2, state) := optimize_expr e fuel (.stringConstant s spos) state
          let (r2, state) := optimize_expr e fuel (.integerConstant i ipos) state
          (.index l2 r2 pos, state)
      | lhs, rhs =>
        let (l2, state) := optimize_expr e fuel lhs state
        let (r2, state) := optimize_expr e fuel rhs state
        (.index l2 r2 pos, state)
    -- [ items .. ]
    | .array items pos =>
      let (items2, state) := optimize_exprs e fuel items state
      (.array items2 pos, state)
    -- #{ items .. }
    | .mapE items pos =>
      let (items2, state) := optimize_map_items e fuel items state
      (.mapE items2 pos, state)
    -- lhs in rhs
    | .inE lhs rhs pos =>
      match lhs, rhs with
      | .stringConstant l lpos, .stringConstant r _ =>
        (if contains_seq r.data l.data then .trueE lpos else .falseE lpos, state.set_dirty)
      | .charConstant c lpos, .stringConstant r _ =>
        (if r.contains c then .trueE lpos else .falseE lpos, state.set_dirty)
      | .stringConstant l lpos, .mapE items _ =>
        (if items.any (fun it => it.1 = l) then .trueE lpos else .falseE lpos,
          state.set_dirty)
      | .charConstant c lpos, .mapE items _ =>
        (if items.any (fun it => it.1 = String.mk [c]) then .trueE lpos else .falseE lpos,
          state.set_dirty)
      | lhs, rhs =>
        let (l2, state) := optimize_expr e fuel lhs state
        let (r2, state) := optimize_expr e fuel rhs state
        (.inE l2 r2 pos, state)
    -- lhs && rhs
    | .and lhs rhs pos =>
      match lhs, rhs with
      | .trueE _, rhs => (rhs, state.set_dirty)
      | .falseE fpos, _ => (.falseE fpos, state.set_dirty)
      | lhs, .trueE _ =>
        let state := state.set_dirty
        optimize_expr e fuel lhs state
      | lhs, rhs =>
        let (l2, state) := optimize_expr e fuel lhs state
        let (r2, state) := optimize_expr e fuel rhs state
        (.and l2 r2 pos, state)
    -- lhs || rhs
    | .or lhs rhs pos =>
      match lhs, rhs with
      | .falseE _, rhs => (rhs, state.set_dirty)
      | .trueE tpos, _ => (.trueE tpos, state.set_dirty)
      | lhs, .falseE _ =>
        let state := state.set_dirty
        optimize_expr e fuel lhs state
      | lhs, rhs =>
        let (l2, state) := optimize_expr e fuel lhs state
        let (r2, state) := optimize_expr e fuel rhs state
        (.or l2 r2 pos, state)
    -- function calls
    | .fnCall id args def_val pos =>
      if id = KEYWORD_PRINT ∨ id = KEYWORD_DEBUG ∨ id = KEYWORD_EVAL then
        -- Do not call some special keywords
        let (args2, state) := optimize_exprs e fuel args state
        (.fnCall id args2 def_val pos, state)
      else if state.optimization_level = .full ∧ exprs_constant args then
        -- Eagerly call the function
        if state.fn_lib.any (fun p => p.1 = id ∧ p.2 = args.length) then
          -- A script-defined function overrides the built-in - do not call
          let (args2, state) := optimize_exprs e fuel args state
          (.fnCall id args2 def_val pos, state)
        else
          let arg_values := args.map Expr.get_constant_value
          let arg_for_type_of :=
            if id = KEYWORD_TYPE_OF ∧ arg_values.length = 1 then
              (arg_values.headD .unit).type_name
            else ""
          match optimize_call_fn e.packages e.functions id arg_values with
          | .error _ =>
            let (args2, state) := optimize_exprs e fuel args state
            (.fnCall id args2 def_val pos, state)
          | .ok result =>
            let result2 :=
              match result with
              | some r => some r
              | none =>
                if arg_for_type_of ≠ "" then some (.str arg_for_type_of) else def_val
            match result2.bind (fun r => map_dynamic_to_expr r pos) with
            | some ex => (ex, state.set_dirty)
            | none =>
              let (args2, state) := optimize_exprs e fuel args state
              (.fnCall id args2 def_val pos, state)
      else
        let (args2, state) := optimize_exprs e fuel args state
        (.fnCall id args2 def_val pos, state)
    -- constant-name
    | .variable name sp pos =>
      if state.contains_constant name then
        -- Replace the constant with its value
        let state := state.set_dirty
        (((state.find_constant name).getD (.unit pos)).set_position pos, state)
      else
        (.variable name sp pos, state)
    -- All other expressions - skip
    | ex => (ex, state)
termination_by structural fuel

def optimize_exprs (e : Engine) (fuel : Nat) (exprs : List Expr) (state : OptState) :
    List Expr × OptState :=
  match fuel with
  | 0 => (exprs, state)
  | fuel + 1 =>
    match exprs with
    | [] => ([], state)
    | ex :: rest =>
      let (e2, state) := optimize_expr e fuel ex state
      let (rest2, state) := optimize_exprs e fuel rest state
      (e2 :: rest2, state)
termination_by structural fuel

def optimize_map_items (e : Engine) (fuel : Nat) (items : List (String × Expr × Pos))
    (state : OptState) : List (String × Expr × Pos) × OptState :=
  match fuel with
  | 0 => (items, state)
  | fuel + 1 =>
    match items with
    | [] => ([], state)
    | (k, ex, p) :: rest =>
      let (e2, state) := optimize_expr e fuel ex state
      let (rest2, state) := optimize_map_items e fuel rest state
      ((k, e2, p) :: rest2, state)
termination_by structural fuel

end

/-- One statement of a top-level pass of `optimize`: constants are recorded
and kept; a `let` statement and the final statement preserve their result. -/
def optimize_pass_items (e : Engine) (fuel : Nat) (stmts : List Stmt)
    (state : OptState) (i total : Nat) : List Stmt × OptState :=
  match stmts with
  | [] => ([], state)
  | stmt :: rest =>
    let (s2, state) :=
      match stmt with
      | .constS name value cpos =>
        -- Load constants; keep the statement in the global scope
        (Stmt.constS name value cpos, state.push_constant name value)
      | s =>
        let keep := (match s with | .letS _ _ _ => true | _ => false) || i = total - 1
        optimize_stmt e fuel s state keep
    let (rest2, state) := optimize_pass_items e fuel rest state (i + 1) total
    (s2 :: rest2, state)

/-- The fixed-point pass loop of `optimize`. -/
def optimize_loop (e : Engine) (fuel : Nat) (stmts : List Stmt) (state : OptState)
    (orig_constants_len : Nat) : List Stmt × OptState :=
  match fuel with
  | 0 => (stmts, state)
  | fuel + 1 =>
    let state := (state.reset).restore_constants orig_constants_len
    let (result, state) := optimize_pass_items e fuel stmts state 0 stmts.length
    if state.is_dirty then optimize_loop e fuel result state orig_constants_len
    else (result, state)

/-- `optimize` (src/optimize.rs): skip at level None; seed the constant
environment from the scope's constant entries (newest first); iterate
passes to a fixed point; then drop pure statements at the global level,
keeping the last statement unless it is a lone no-op. -/
def optimize (e : Engine) (fuel : Nat) (statements : List Stmt) (scope : Scope)
    (fn_lib : List (String × Nat)) (level : OptimizationLevel) : List Stmt :=
  if level = .noneL then statements
  else
    let state0 : OptState :=
      { changed := false, constants := [], fn_lib := fn_lib,
        optimization_level := level }
    let state :=
      scope.reverse.foldl
        (fun st entry =>
          match entry.typ, entry.expr with
          | .constant, some ex =>
            if ex.is_constant then st.push_constant entry.name ex else st
          | _, _ => st)
        state0
    let orig_constants_len := state.constants.length
    let (result, _) := optimize_loop e fuel statements state orig_constants_len
    -- Eliminate pure code at the global level, keeping the last statement
    let last_stmt := result.getLast?
    let result := retain_impure result.dropLast
    match last_stmt with
    | none => result
    | some stmt =>
      if result.length != 0 || !(match stmt with | .noop _ => true | _ => false) then
        result ++ [stmt]
      else
        result

/-- Modelled from the spec: `Stmt::position` (external parser module). -/
def Stmt.position : Stmt → Pos
  | .noop p => p
  | .letS _ _ p => p
  | .constS _ _ p => p
  | .block _ p => p
  | .exprS ex => ex.position
  | .continueS p => p
  | .breakS p => p
  | .returnWithVal _ _ p => p
  | .ifThenElse g _ _ => g.position
  | .whileS g _ => g.position
  | .loop b => b.position
  | .forS _ r _ => r.position

/-- The function-body half of `optimize_into_ast`: optimize the body in a
fresh scope and unwrap a trailing `return`. -/
def optimize_fn_body (e : Engine) (fuel : Nat) (fn_lib : List (String × Nat))
    (level : OptimizationLevel) (fd : FnDef) : FnDef :=
  if level = .noneL then fd
  else
    let pos := fd.body.position
    let body := optimize e fuel [fd.body] Scope.new fn_lib level
    let new_body :=
      match (body.getLast?).getD (.noop pos) with
      | .returnWithVal (some val) .normal _ => Stmt.exprS val
      | .returnWithVal none .normal rpos => Stmt.exprS (.unit rpos)
      | stmt => stmt
    { fd with body := new_body }

/-- `optimize_into_ast`: optimize the statements and every function body,
producing the final AST. -/
def optimize_into_ast (e : Engine) (fuel : Nat) (scope : Scope)
    (statements : List Stmt) (functions : List FnDef) (level : OptimizationLevel) :
    List Stmt × List FnDef :=
  let fn_lib := functions.map fun fd => (fd.name, fd.params.length)
  let lib := functions.map (optimize_fn_body e fuel fn_lib level)
  (match level with
   | .noneL => statements
   | _ => optimize e fuel statements scope fn_lib level,
   lib)

end Rhai

namespace Rhai

/-! ## Concrete fixtures for the claim theorems

A small host environment: integer arithmetic natives, engines with and
without a parse hook, and the scenario programs of the specification,
written as the ASTs the external parser would produce (each node carries
its source position). -/

/-- A binary native over two integers. -/
def int_binop (f : Int → Int → Dynamic) : NativeFn := fun args =>
  match args with
  | [.int a, .int b] => .ok (f a b)
  | _ => .error (.panic "argument downcast failed")

/-- `+`, `-`, `==` on integers, as the standard package registers them. -/
def arith_functions : List ((String × List TypeId) × NativeFn) :=
  [ (("+", [.tInt, .tInt]), int_binop (fun a b => .int (a + b))),
    (("-", [.tInt, .tInt]), int_binop (fun a b => .int (a - b))),
    (("==", [.tInt, .tInt]), int_binop (fun a b => .bool (a = b))) ]

/-- A parse hook for engines whose scripts never call `eval`. -/
def no_parse : String → Except EvalError (List Stmt × List FnDef) :=
  fun _ => .error (.errorRuntime "parse error" 0)

/-- A debug-build engine with the arithmetic natives registered. -/
def test_engine : Engine :=
  { Engine.new_raw true no_parse with functions := arith_functions }

/-- Scenario 2: `let a = [1,2,3]; a[1] = 20; a[0] + a[1] + a[2]`. -/
def prog2 : List Stmt :=
  [ .letS "a" (some (.array
      [.integerConstant 1 1, .integerConstant 2 1, .integerConstant 3 1] 1)) 1,
    .exprS (.assignment (.index (.variable "a" none 2) (.integerConstant 1 2) 2)
      (.integerConstant 20 2) 2),
    .exprS (.fnCall "+" [.fnCall "+"
        [.index (.variable "a" none 3) (.integerConstant 0 3) 3,
         .index (.variable "a" none 3) (.integerConstant 1 3) 3] none 3,
      .index (.variable "a" none 3) (.integerConstant 2 3) 3] none 3) ]

/-- Scenario 3: `let m = #{x: 1}; m.x = m.x + 41; m.x`. -/
def prog3 : List Stmt :=
  [ .letS "m" (some (.mapE [("x", .integerConstant 1 1, 1)] 1)) 1,
    .exprS (.assignment (.dot (.variable "m" none 2) (.property "x" 2) 2)
      (.fnCall "+" [.dot (.variable "m" none 2) (.property "x" 2) 2,
        .integerConstant 41 2] none 2) 2),
    .exprS (.dot (.variable "m" none 3) (.property "x" 3) 3) ]

/-- Scenario 7: `let s = "abc"; s[1] = 'X'; s`. -/
def prog7 : List Stmt :=
  [ .letS "s" (some (.stringConstant "abc" 1)) 1,
    .exprS (.assignment (.index (.variable "s" none 2) (.integerConstant 1 2) 2)
      (.charConstant 'X' 2) 2),
    .exprS (.variable "s" none 3) ]

/-- Scenario 10: `const K = 3; K = 4`. -/
def prog10 : List Stmt :=
  [ .constS "K" (.integerConstant 3 1) 1,
    .exprS (.assignment (.variable "K" none 2) (.integerConstant 4 2) 2) ]

/-- `fn foo(n) { if n == 0 { 0 } else { n + foo(n - 1) } }` (the recursion
of the stack-overflow test). -/
def foo_def : FnDef :=
  { name := "foo", params := ["n"],
    body := .ifThenElse (.fnCall "==" [.variable "n" none 4, .integerConstant 0 4] none 4)
      (.exprS (.integerConstant 0 4))
      (some (.exprS (.fnCall "+" [.variable "n" none 5,
        .fnCall "foo" [.fnCall "-" [.variable "n" none 5, .integerConstant 1 5] none 5]
          none 5] none 5))) }

/-- The test engine with the depth bound lowered to 3. -/
def engine_d3 : Engine := test_engine.set_max_call_levels 3

/-- `fn f(x) { x.f() }`: method-style recursion through the dot chain. -/
def f_method_def : FnDef :=
  { name := "f", params := ["x"],
    body := .exprS (.dot (.variable "x" none 1) (.fnCall "f" [] none 1) 1) }

/-- The test engine with the depth bound lowered to 2. -/
def engine_d2 : Engine := test_engine.set_max_call_levels 2

/-- `f(0)` for the method-style recursion. -/
def prog_method_rec : List Stmt := [.exprS (.fnCall "f" [.integerConstant 0 2] none 2)]

/-- `fn id(x) { x }`. -/
def id_fn_def : FnDef :=
  { name := "id", params := ["x"], body := .exprS (.variable "x" none 1) }

/-- `fn f(x) { 0 }`. -/
def f0_def : FnDef :=
  { name := "f", params := ["x"], body := .exprS (.integerConstant 0 9) }

/-- `const k = 3; k.f(); k` — a method call on a constant binding. -/
def prog_const_method : List Stmt :=
  [ .constS "k" (.integerConstant 3 1) 1,
    .exprS (.dot (.variable "k" none 2) (.fnCall "f" [] none 2) 2),
    .exprS (.variable "k" none 3) ]

/-- A parse hook recognising the two scripts the `eval` fixtures use. -/
def eval_parse : String → Except EvalError (List Stmt × List FnDef) := fun s =>
  if s = "let t = 1; zzz" then
    .ok ([.letS "t" (some (.integerConstant 1 11)) 11,
          .exprS (.variable "zzz" none 12)], [])
  else if s = "fn g() {}" then
    .ok ([], [{ name := "g", params := [], body := .noop 21 }])
  else
    .error (.errorRuntime "parse error" 0)

/-- A debug-build engine with the arithmetic natives and the parse hook. -/
def eval_engine : Engine :=
  { Engine.new_raw true eval_parse with functions := arith_functions }

/-- `let a = 0; eval("let t = 1; zzz")`: the eval pushes `t` and then fails
with an unknown variable. -/
def prog_eval_fail : List Stmt :=
  [ .letS "a" (some (.integerConstant 0 1)) 1,
    .exprS (.fnCall "eval" [.stringConstant "let t = 1; zzz" 2] none 2) ]

/-- `eval("fn g() {}")` where the call node sits at position 4 and its
argument at position 5. -/
def prog_eval_fndef : List Stmt :=
  [.exprS (.fnCall "eval" [.stringConstant "fn g() {}" 5] none 4)]

/-- `get$a` and `set$a` natives over an integer object, as a host would
register property accessors. -/
def getter_setter_functions : List ((String × List TypeId) × NativeFn) :=
  [ (("get$a", [.tInt]), fun _ => .ok (.map [("b", .int 0)])),
    (("set$a", [.tInt, .tMap]), fun _ => .ok .unit) ]

/-- An engine with `get$a`/`set$a` registered (and no mut-getters). -/
def gs_engine : Engine :=
  { Engine.new_raw true no_parse with functions := getter_setter_functions }

/-- `let x = 5; x.a.b = 7`: a nested chain write through a property of a
non-map value. -/
def prog_nested_set : List Stmt :=
  [ .letS "x" (some (.integerConstant 5 1)) 1,
    .exprS (.assignment
      (.dot (.variable "x" none 2) (.dot (.property "a" 2) (.property "b" 2) 2) 2)
      (.integerConstant 7 2) 2) ]

/-- `if 1 { }`: a non-boolean guard over an empty body. -/
def progIf1 : List Stmt := [.ifThenElse (.integerConstant 1 1) (.noop 1) none]

/-- Scenario 9: `let x = 10; { let x = 1; } x`. -/
def prog9 : List Stmt :=
  [ .letS "x" (some (.integerConstant 10 1)) 1,
    .block [.letS "x" (some (.integerConstant 1 2)) 2] 2,
    .exprS (.variable "x" none 3) ]

/-- `const K = 3; K + 1`. -/
def progK : List Stmt :=
  [ .constS "K" (.integerConstant 3 1) 1,
    .exprS (.fnCall "+" [.variable "K" none 2, .integerConstant 1 2] none 2) ]

/-- `let y = 0; if true { y = 5 } else { y = 6 }; while false { y = 7 }; y`. -/
def progMix : List Stmt :=
  [ .letS "y" (some (.integerConstant 0 1)) 1,
    .ifThenElse (.trueE 2)
      (.exprS (.assignment (.variable "y" none 2) (.integerConstant 5 2) 2))
      (some (.exprS (.assignment (.variable "y" none 2) (.integerConstant 6 2) 2))),
    .whileS (.falseE 3)
      (.exprS (.assignment (.variable "y" none 3) (.integerConstant 7 3) 3)),
    .exprS (.variable "y" none 4) ]

/-- The dot-chain spine of properties `.p1.p2.⋯.pn` over a head property
and a tail of further properties, as the parser lays it out
(right-nested). -/
def prop_chain_rhs : String → List String → Expr
  | k, [] => .property k 0
  | k, k2 :: rest => .dot (.property k 0) (prop_chain_rhs k2 rest) 0

/-- Read a value through a path of map keys; every step must hit a map and
every key but possibly the last must be present. -/
def get_path : Dynamic → String → List String → Option Dynamic
  | .map m, k, [] => map_get m k
  | .map m, k, k2 :: rest => (map_get m k).bind fun d => get_path d k2 rest
  | _, _, _ => none

/-- Write a value through a path of map keys: intermediate keys must exist
(the chain descends with `create = false`), the final key is
inserted-or-replaced (`create = true`). -/
def set_path : Dynamic → String → List String → Dynamic → Option Dynamic
  | .map m, k, [], v => some (.map (map_insert m k v))
  | .map m, k, k2 :: rest, v =>
    (map_get m k).bind fun d =>
      (set_path d k2 rest v).map fun d2 => .map (map_insert m k d2)
  | _, _, _, _ => none

end Rhai

namespace Rhai

/-! ## Helper lemmas -/

theorem map_get_append_absent (m : List (String × Dynamic)) (key : String) (v : Dynamic)
    (h : map_get m key = none) : map_get (m ++ [(key, v)]) key = some v := by
  induction m with
  | nil => simp [map_get]
  | cons kv rest ih =>
    obtain ⟨k, w⟩ := kv
    by_cases hk : k = key
    · simp [map_get, hk] at h
    · simp [map_get, hk] at h ⊢
      exact ih h

theorem map_get_insert_self (m : List (String × Dynamic)) (k : String) (v : Dynamic) :
    map_get (map_insert m k v) k = some v := by
  induction m with
  | nil => simp [map_insert, map_get]
  | cons kv rest ih =>
    obtain ⟨k1, w⟩ := kv
    by_cases hk : k1 = k
    · simp [map_insert, map_get, hk]
    · simp [map_insert, map_get, hk, ih]

theorem map_insert_self (m : List (String × Dynamic)) (k : String) (v : Dynamic)
    (h : map_get m k = some v) : map_insert m k v = m := by
  induction m with
  | nil => simp [map_get] at h
  | cons kv rest ih =>
    obtain ⟨k1, w⟩ := kv
    by_cases hk : k1 = k
    · simp [map_get, hk] at h
      simp [map_insert, hk, h]
    · simp [map_get, hk] at h
      simp [map_insert, hk, ih h]

theorem map_insert_absent (m : List (String × Dynamic)) (k : String) (v : Dynamic)
    (h : map_get m k = none) : map_insert m k v = m ++ [(k, v)] := by
  induction m with
  | nil => simp [map_insert]
  | cons kv rest ih =>
    obtain ⟨k1, w⟩ := kv
    by_cases hk : k1 = k
    · simp [map_get, hk] at h
    · simp [map_get, hk] at h
      simp [map_insert, hk, ih h]

theorem map_insert_append_absent (m : List (String × Dynamic)) (k : String)
    (u v : Dynamic) (h : map_get m k = none) :
    map_insert (m ++ [(k, u)]) k v = m ++ [(k, v)] := by
  induction m with
  | nil => simp [map_insert]
  | cons kv rest ih =>
    obtain ⟨k1, w⟩ := kv
    by_cases hk : k1 = k
    · simp [map_get, hk] at h
    · simp [map_get, hk] at h
      simp [map_insert, hk, ih h]

/-- Writing through a `create = true` map place is plain insert-or-replace:
the `entry().or_insert(unit)` followed by the write collapses. -/
theorem map_insert_entry (m : List (String × Dynamic)) (k : String) (v : Dynamic) :
    map_insert (map_entry_or_insert_unit m k) k v = map_insert m k v := by
  unfold map_entry_or_insert_unit
  cases hg : map_get m k with
  | some w => rfl
  | none => rw [map_insert_append_absent m k .unit v hg, map_insert_absent m k v hg]

/-- Writing a slot's current value back leaves the scope unchanged. -/
theorem scope_set_same (s : Scope) (i : Nat) (v : Dynamic) (t : EntryType)
    (h : s.get_value_at i = some (v, t)) : s.set_value_at i v = s := by
  induction s generalizing i with
  | nil => simp [Scope.get_value_at] at h
  | cons en rest ih =>
    cases i with
    | zero =>
      simp [Scope.get_value_at] at h
      obtain ⟨en1, en2, en3, en4⟩ := en
      simp at h
      simp [Scope.set_value_at, h.1]
    | succ n =>
      simp [Scope.get_value_at] at h
      simp [Scope.set_value_at]
      exact ih n (by simpa [Scope.get_value_at] using h)

/-- When the parameter and argument counts agree, `mem::take` consumes every
argument. -/
theorem take_args_all (ps : List String) (args : List Dynamic)
    (h : ps.length = args.length) :
    take_args ps args = args.map fun _ => Dynamic.unit := by
  induction ps generalizing args with
  | nil =>
    cases args with
    | nil => simp [take_args]
    | cons a as1 => simp at h
  | cons p rest ih =>
    cases args with
    | nil => simp at h
    | cons a as1 =>
      simp only [take_args, List.map]
      exact congrArg _ (ih as1 (by simpa using h))

/-- Pre-evaluating a pure property chain pushes one unit placeholder per
property and touches neither scope nor state. -/
theorem idx_chain_units (e : Engine) (fn_lib : FunctionsLib) :
    ∀ (ps : List String) (p : String) (fuel : Nat) (scope : Scope) (state : State)
      (iv : List Dynamic) (level : Nat), ps.length + 1 ≤ fuel →
      eval_indexed_chain e fuel fn_lib scope state (prop_chain_rhs p ps) iv level
        = (.ok (), scope, state, List.replicate (ps.length + 1) Dynamic.unit ++ iv) := by
  intro ps
  induction ps with
  | nil =>
    intro p fuel scope state iv level hf
    obtain ⟨g, rfl⟩ : ∃ g, fuel = g + 1 := ⟨fuel - 1, by omega⟩
    simp [prop_chain_rhs, eval_indexed_chain, List.replicate]
  | cons k rest ih =>
    intro p fuel scope state iv level hf
    obtain ⟨g, rfl⟩ : ∃ g, fuel = g + 1 := ⟨fuel - 1, by omega⟩
    have h := ih k g scope state iv level (by simp at hf ⊢; omega)
    simp [prop_chain_rhs, eval_indexed_chain, h, List.replicate]

/-- A chain write through a path of map keys stores `set_path`. -/
theorem chain_write_helper (e : Engine) (fn_lib : FunctionsLib) (level : Nat) :
    ∀ (ps : List String) (p : String) (target nv t2 : Dynamic) (fuel : Nat)
      (iv1 iv2 : List Dynamic) (op : Pos),
      set_path target p ps nv = some t2 →
      iv1.length = ps.length + 1 →
      2 * ps.length + 1 ≤ fuel →
      eval_dot_index_chain_helper e fuel fn_lib target (prop_chain_rhs p ps)
        (iv1 ++ iv2) false op level (some nv)
        = .ok (.unit, t2, iv2) := by
  intro ps
  induction ps with
  | nil =>
    intro p target nv t2 fuel iv1 iv2 op hset hlen hf
    match target, hset with
    | .map m, hset =>
      obtain ⟨g, rfl⟩ : ∃ g, fuel = g + 1 := ⟨fuel - 1, by omega⟩
      match iv1, hlen with
      | [u], _ =>
        simp [set_path] at hset
        simp [prop_chain_rhs, eval_dot_index_chain_helper, Dynamic.is_map,
          get_indexed_mut, Dynamic.take_string, map_insert_entry, ← hset]
  | cons k rest ih =>
    intro p target nv t2 fuel iv1 iv2 op hset hlen hf
    match target, hset with
    | .map m, hset =>
      obtain ⟨g, hg⟩ : ∃ g, fuel = g + 2 := ⟨fuel - 2, by simp at hf; omega⟩
      subst hg
      match iv1, hlen with
      | u :: iv1', hlen =>
        simp [set_path] at hset
        obtain ⟨d, hd, d2, hset2, ht2⟩ :
            ∃ d, map_get m p = some d ∧ ∃ d2, set_path d k rest nv = some d2
              ∧ .map (map_insert m p d2) = t2 := by
          rcases hmg : map_get m p with _ | d
          · rw [hmg] at hset; simp at hset
          · rw [hmg] at hset
            simp at hset
            rcases hsp : set_path d k rest nv with _ | d2
            · rw [hsp] at hset; simp at hset
            · rw [hsp] at hset; simp at hset
              exact ⟨d, rfl, d2, hsp, hset⟩
        have hih := ih k d nv d2 g iv1' iv2 0 hset2 (by simpa using hlen)
          (by simp at hf; omega)
        simp [prop_chain_rhs, eval_dot_index_chain_helper, eval_dot_chain_nested,
          Dynamic.is_map, get_indexed_mut, Dynamic.take_string, hd, hih, ht2]

/-- A chain read through a path of map keys returns `get_path` and leaves
the place unchanged. -/
theorem chain_read_helper (e : Engine) (fn_lib : FunctionsLib) (level : Nat) :
    ∀ (ps : List String) (p : String) (target v : Dynamic) (fuel : Nat)
      (iv1 iv2 : List Dynamic) (op : Pos),
      get_path target p ps = some v →
      iv1.length = ps.length + 1 →
      2 * ps.length + 1 ≤ fuel →
      eval_dot_index_chain_helper e fuel fn_lib target (prop_chain_rhs p ps)
        (iv1 ++ iv2) false op level none
        = .ok (v, target, iv2) := by
  intro ps
  induction ps with
  | nil =>
    intro p target v fuel iv1 iv2 op hget hlen hf
    match target, hget with
    | .map m, hget =>
      obtain ⟨g, rfl⟩ : ∃ g, fuel = g + 1 := ⟨fuel - 1, by omega⟩
      match iv1, hlen with
      | [u], _ =>
        simp [get_path] at hget
        simp [prop_chain_rhs, eval_dot_index_chain_helper, Dynamic.is_map,
          get_indexed_mut, Dynamic.take_string, hget]
  | cons k rest ih =>
    intro p target v fuel iv1 iv2 op hget hlen hf
    match target, hget with
    | .map m, hget =>
      obtain ⟨g, hg⟩ : ∃ g, fuel = g + 2 := ⟨fuel - 2, by simp at hf; omega⟩
      subst hg
      match iv1, hlen with
      | u :: iv1', hlen =>
        simp [get_path] at hget
        obtain ⟨d, hd, hget2⟩ :
            ∃ d, map_get m p = some d ∧ get_path d k rest = some v := by
          rcases hmg : map_get m p with _ | d
          · rw [hmg] at hget; simp at hget
          · rw [hmg] at hget
            simp at hget
            exact ⟨d, rfl, hget⟩
        have hih := ih k d v g iv1' iv2 0 hget2 (by simpa using hlen)
          (by simp at hf; omega)
        simp [prop_chain_rhs, eval_dot_index_chain_helper, eval_dot_chain_nested,
          Dynamic.is_map, get_indexed_mut, Dynamic.take_string, hd, hih,
          map_insert_self m p d hd]

/-- Reading back a path that was just written yields the written value. -/
theorem get_path_set_path :
    ∀ (ps : List String) (p : String) (target v t2 : Dynamic),
      set_path target p ps v = some t2 → get_path t2 p ps = some v := by
  intro ps
  induction ps with
  | nil =>
    intro p target v t2 hset
    match target, hset with
    | .map m, hset =>
      simp [set_path] at hset
      rw [← hset]
      simp [get_path, map_get_insert_self]
  | cons k rest ih =>
    intro p target v t2 hset
    match target, hset with
    | .map m, hset =>
      simp [set_path] at hset
      rcases hmg : map_get m p with _ | d
      · rw [hmg] at hset; simp at hset
      · rw [hmg] at hset
        simp at hset
        rcases hsp : set_path d k rest v with _ | d2
        · rw [hsp] at hset; simp at hset
        · rw [hsp] at hset
          simp at hset
          rw [← hset]
          simp [get_path, map_get_insert_self]
          exact ih k d v d2 hsp

/-- The body of `fn f(x) { x.f() }` exhausts any fuel: the dot-chain method
call re-enters `f` through `exec_fn_call` with the depth counter reset to
zero, so the depth bound of 2 never trips. -/
theorem method_rec_aux : ∀ F : Nat,
    (eval_stmt engine_d2 F [f_method_def] [⟨"x", .normal, .int 0, none⟩] State.new
      f_method_def.body 1).1 = .error .outOfFuel := by
  intro F
  induction F using Nat.strong_induction_on with
  | _ F ih =>
    match F with
    | 0 => rfl
    | 1 => rfl
    | 2 => rfl
    | 3 => rfl
    | 4 => rfl
    | 5 => rfl
    | 6 => rfl
    | (g + 7) =>
      have h := ih g (by omega)
      simp +decide [f_method_def, eval_stmt, eval_expr, eval_dot_index_chain,
        eval_indexed_chain, eval_exprs, eval_dot_index_chain_helper, exec_fn_call,
        call_fn_raw, call_fn_from_lib, search_scope, Scope.get_index, Scope.get_value_at,
        Scope.extend, Scope.new, Scope.len, State.new, engine_d2, test_engine,
        Engine.new_raw, Engine.set_max_call_levels, FunctionsLib.get_function,
        List.find?, assoc_get, package_fn_get, arith_functions, Dynamic.type_id,
        Dynamic.is_map, Dynamic.as_str, extract_prop_from_getter, extract_prop_from_setter,
        KEYWORD_PRINT, KEYWORD_DEBUG, KEYWORD_TYPE_OF, KEYWORD_EVAL, FUNC_INDEXER,
        FUNC_GETTER, FUNC_SETTER, has_override, take_args, List.headD, List.foldl,
        MAX_CALL_STACK_DEPTH] at h ⊢
      rw [h]
      rfl

set_option maxRecDepth 4000 in
/-- `f(0)` for `fn f(x) { x.f() }` diverges at every fuel instead of
reporting a stack overflow, although the depth bound is 2. -/
theorem method_rec_diverges : ∀ fuel : Nat,
    (eval_program engine_d2 fuel [f_method_def] prog_method_rec).1
      = .error .outOfFuel := by
  intro fuel
  match fuel with
  | 0 => rfl
  | 1 => rfl
  | 2 => rfl
  | 3 => rfl
  | 4 => rfl
  | 5 => rfl
  | (g + 6) =>
    have h := method_rec_aux g
    simp +decide [eval_program, prog_method_rec, f_method_def, eval_stmts, eval_stmt,
      eval_expr, eval_dot_index_chain, eval_indexed_chain, eval_exprs,
      eval_dot_index_chain_helper, exec_fn_call, call_fn_raw, call_fn_from_lib,
      search_scope, Scope.get_index, Scope.get_value_at, Scope.extend, Scope.new,
      Scope.len, State.new, engine_d2, test_engine, Engine.new_raw,
      Engine.set_max_call_levels, FunctionsLib.get_function, List.find?, assoc_get,
      package_fn_get, arith_functions, Dynamic.type_id, Dynamic.is_map, Dynamic.as_str,
      extract_prop_from_getter, extract_prop_from_setter, KEYWORD_PRINT, KEYWORD_DEBUG,
      KEYWORD_TYPE_OF, KEYWORD_EVAL, FUNC_INDEXER, FUNC_GETTER, FUNC_SETTER,
      has_override, take_args, List.headD, List.foldl, MAX_CALL_STACK_DEPTH] at h ⊢
    rw [h]
    rfl

end Rhai

namespace Rhai

/-! ## Claim theorems -/

/-- C1, counterexample. The claim says string indexing returns a
`StringChar` target and `let s = "abc"; s[1] = <X>; s` evaluates to "aXc".
In this code `get_indexed_mut` hits `unimplemented!("Strings not yet
implemented")` for string targets, so the scenario program panics instead
of producing "aXc". -/
theorem C1_counterexample :
    (eval_program test_engine 100 [] prog7).1
      = .error (.panic "Strings not yet implemented")
    ∧ (eval_program test_engine 100 [] prog7).1 ≠ .ok (.str "aXc") := by
  refine ⟨rfl, ?_⟩
  intro h
  rw [show (eval_program test_engine 100 [] prog7).1
      = .error (.panic "Strings not yet implemented") from rfl] at h
  exact Except.noConfusion h

/-- C1, amended. For every string target and any index, kind of indexing
and positions, `get_indexed_mut` panics with "Strings not yet implemented"
(there is no `StringChar` target in this code), and the scenario
`let s = "abc"; s[1] = <X>; s` therefore panics. -/
theorem C1_string_indexing_unimplemented (e : Engine) (target idx : Dynamic)
    (ip op : Pos) (create : Bool) (h : target.is_string = true) :
    get_indexed_mut e target idx ip op create
      = .error (.panic "Strings not yet implemented")
    ∧ (eval_program test_engine 100 [] prog7).1
      = .error (.panic "Strings not yet implemented") := by
  refine ⟨?_, rfl⟩
  cases target <;> simp_all [Dynamic.is_string, get_indexed_mut]

/-- C1, witness for the amended theorem. -/
theorem C1_witness :
    get_indexed_mut test_engine (.str "abc") (.int 1) 2 2 true
      = .error (.panic "Strings not yet implemented") :=
  (C1_string_indexing_unimplemented test_engine (.str "abc") (.int 1) 2 2 true rfl).1

/-- C2, counterexample. The claim says a dot/index chain descending through
a property of a non-Map calls `get$<prop>` to materialize a temporary and
writes it back through `set$<prop>`. With `get$a` and `set$a` registered,
the chain write `let x = 5; x.a.b = 7` nevertheless panics
(`unimplemented!`): without a registered mut-getter the evaluator refuses
nested writes and never performs the get-recurse-set round trip. -/
theorem C2_counterexample :
    (eval_program gs_engine 100 [] prog_nested_set).1
      = .error (.panic "Some sort of error here")
    ∧ (eval_program gs_engine 100 [] prog_nested_set).1 ≠ .ok .unit := by
  refine ⟨rfl, ?_⟩
  intro h
  rw [show (eval_program gs_engine 100 [] prog_nested_set).1
      = .error (.panic "Some sort of error here") from rfl] at h
  exact Except.noConfusion h

/-- C2, amended. For chains descending through Map values the write/read
round trip holds: writing `x.p1...pN = v` stores `set_path` into the scope
slot and a subsequent read of the same chain returns `v`. On a non-Map
value a nested chain first looks for a registered mut-getter; when none is
registered a chained write panics (it is unimplemented), so no `set$<prop>`
write-back of a `get$<prop>` temporary ever happens. -/
theorem C2_map_chain_round_trip (e : Engine) (fn_lib : FunctionsLib) (scope : Scope)
    (state : State) (x : String) (i : Nat) (target : Dynamic) (p : String)
    (ps : List String) (nv t2 : Dynamic) (fuel : Nat) (xp dp : Pos) (level : Nat)
    (tf : EntryType)
    (hfind : scope.get_index x = some (i, tf))
    (hval : scope.get_value_at i = some (target, EntryType.normal))
    (hset : set_path target p ps nv = some t2)
    (hfuel : 2 * ps.length + 2 ≤ fuel) :
    eval_dot_index_chain e fuel fn_lib scope state (.variable x none xp)
      (prop_chain_rhs p ps) false dp level (some nv)
      = (.ok .unit, scope.set_value_at i t2, state)
    ∧ get_path t2 p ps = some nv
    ∧ (∀ scope2 : Scope, scope2.get_index x = some (i, tf) →
        scope2.get_value_at i = some (t2, EntryType.normal) →
        eval_dot_index_chain e fuel fn_lib scope2 state (.variable x none xp)
          (prop_chain_rhs p ps) false dp level none
          = (.ok nv, scope2, state))
    ∧ (∀ (tgt : Dynamic) (pid : String) (pp rp np op2 : Pos) (drhs : Expr)
        (iv : List Dynamic) (ii : Bool) (lvl : Nat) (nv2 : Dynamic) (g : Nat),
        tgt.is_map = false →
        assoc_get e.mut_getters (make_mut_getter pid, tgt.type_id) = none →
        eval_dot_chain_nested e (g + 1) fn_lib tgt (.property pid pp) drhs iv ii
          rp np op2 lvl (some nv2)
          = .error (.panic "Some sort of error here")) := by
  obtain ⟨g, rfl⟩ : ∃ g, fuel = g + 1 := ⟨fuel - 1, by omega⟩
  have hidx := idx_chain_units e fn_lib ps p g scope state [] level (by omega)
  have hw := chain_write_helper e fn_lib level ps p target nv t2 g
    (List.replicate (ps.length + 1) Dynamic.unit) [] dp hset (by simp) (by omega)
  have hget := get_path_set_path ps p target nv t2 hset
  simp only [List.append_nil] at hidx hw
  refine ⟨?_, hget, ?_, ?_⟩
  · simp [eval_dot_index_chain, hidx, search_scope, hfind, hval, hw]
  · intro scope2 hfind2 hval2
    have hidx2 := idx_chain_units e fn_lib ps p g scope2 state [] level (by omega)
    have hr := chain_read_helper e fn_lib level ps p t2 nv g
      (List.replicate (ps.length + 1) Dynamic.unit) [] dp hget (by simp) (by omega)
    simp only [List.append_nil] at hidx2 hr
    simp [eval_dot_index_chain, hidx2, search_scope, hfind2, hval2, hr,
      scope_set_same scope2 i t2 .normal hval2]
  · intro tgt pid pp rp np op2 drhs iv ii lvl nv2 g2 hmap hmg
    simp [eval_dot_chain_nested, hmap, hmg]

/-- C2, witness for the amended theorem: write then read of `x.a.b` over
nested map literals. -/
theorem C2_witness :
    eval_dot_index_chain test_engine 6 [] [⟨"x", .normal, .map [("a", .map [])], none⟩]
      State.new (.variable "x" none 2) (prop_chain_rhs "a" ["b"]) false 2 0
      (some (.int 7))
      = (.ok .unit, [⟨"x", .normal, .map [("a", .map [("b", .int 7)])], none⟩],
          State.new)
    ∧ eval_dot_index_chain test_engine 6 []
        [⟨"x", .normal, .map [("a", .map [("b", .int 7)])], none⟩] State.new
        (.variable "x" none 2) (prop_chain_rhs "a" ["b"]) false 2 0 none
      = (.ok (.int 7), [⟨"x", .normal, .map [("a", .map [("b", .int 7)])], none⟩],
          State.new) := by
  have h := C2_map_chain_round_trip test_engine []
    [⟨"x", .normal, .map [("a", .map [])], none⟩]
    State.new "x" 0 (.map [("a", .map [])]) "a" ["b"] (.int 7)
    (.map [("a", .map [("b", .int 7)])]) 6 2 2 0 .normal rfl rfl rfl (by decide)
  exact ⟨h.1, h.2.2.1 [⟨"x", .normal, .map [("a", .map [("b", .int 7)])], none⟩] rfl rfl⟩

/-- C3, counterexample. The claim says the scope receives a clone of every
argument so the caller's argument values are unchanged after the call.
`call_fn_from_lib` consumes the arguments with `mem::take`: after calling
`fn id(x) { x }` on `[5]`, the caller's argument slice holds `[unit]`. -/
theorem C3_counterexample :
    (call_fn_from_lib test_engine 50 []
      (some [⟨"z", .normal, .int 9, none⟩]) id_fn_def [.int 5] 3 0).2.2
      = [Dynamic.unit]
    ∧ (call_fn_from_lib test_engine 50 []
      (some [⟨"z", .normal, .int 9, none⟩]) id_fn_def [.int 5] 3 0).2.2
      ≠ [Dynamic.int 5] := by
  refine ⟨rfl, ?_⟩
  intro h
  rw [show (call_fn_from_lib test_engine 50 []
      (some [⟨"z", .normal, .int 9, none⟩]) id_fn_def [.int 5] 3 0).2.2
      = [Dynamic.unit] from rfl] at h
  simp at h

/-- C3, amended. Calling a script function with a non-empty external scope:
the scope is extended with one Normal entry per parameter in declaration
order holding the argument value (moved, not cloned), the body runs at
`level + 1` with a fresh state, a `Return(v)` sentinel becomes `Ok(v)`, any
other error is stamped with the call position, the scope is rewound to its
pre-call length — and the caller's argument values are all replaced by
unit. -/
theorem C3_script_call_frame (e : Engine) (fuel : Nat) (fn_lib : FunctionsLib)
    (sc : Scope) (fd : FnDef) (args : List Dynamic) (pos : Pos) (level : Nat)
    (hnz : 0 < sc.len) (hlen : fd.params.length = args.length) :
    call_fn_from_lib e (fuel + 1) fn_lib (some sc) fd args pos level
      = (match (eval_stmt e fuel fn_lib
            (sc.extend ((fd.params.zip args).map fun p => (p.1, EntryType.normal, p.2)))
            State.new fd.body (level + 1)).1 with
         | .ok v => .ok v
         | .error (.ret x _) => .ok x
         | .error err => .error (err.set_position pos),
         some ((eval_stmt e fuel fn_lib
            (sc.extend ((fd.params.zip args).map fun p => (p.1, EntryType.normal, p.2)))
            State.new fd.body (level + 1)).2.1.rewind sc.len),
         args.map fun _ => Dynamic.unit) := by
  rcases hr : eval_stmt e fuel fn_lib
      (sc.extend ((fd.params.zip args).map fun p => (p.1, EntryType.normal, p.2)))
      State.new fd.body (level + 1) with ⟨r, sc2, st2⟩
  simp [call_fn_from_lib, hnz, hr, take_args_all _ _ hlen]

/-- C3, witness for the amended theorem. -/
theorem C3_witness :
    call_fn_from_lib test_engine 30 [] (some [⟨"z", .normal, .int 9, none⟩])
      id_fn_def [.int 5] 3 0
      = (.ok (.int 5), some [⟨"z", .normal, .int 9, none⟩], [Dynamic.unit]) := by
  rw [C3_script_call_frame test_engine 29 [] [⟨"z", .normal, .int 9, none⟩]
    id_fn_def [.int 5] 3 0 (by decide) rfl]
  rfl

/-- C4, counterexample. The claim says map indexing with `create = false`
yields a Temp holding unit when the key is absent; the code returns
`ErrorIndexingType` instead. -/
theorem C4_counterexample :
    get_indexed_mut test_engine (.map [("a", .int 1)]) (.str "k") 7 0 false
      = .error (.errorIndexingType "TODO: Create a real index not found error?" 7) := rfl

/-- C4, amended. Map + string indexing: with `create = true` an absent key
is inserted as a unit default and a writable place into it is returned,
while a present key is returned without insertion; with `create = false`
the base is never modified and an absent key yields `ErrorIndexingType`
rather than a Temp unit. -/
theorem C4_map_indexing (e : Engine) (m : List (String × Dynamic)) (key : String)
    (ip op : Pos) :
    (map_get m key = none →
      get_indexed_mut e (.map m) (.str key) ip op true
        = .ok (.unit, .map (m ++ [(key, .unit)]),
            fun nv => .map (map_insert (m ++ [(key, .unit)]) key nv)))
    ∧ (∀ v, map_get m key = some v →
      get_indexed_mut e (.map m) (.str key) ip op true
        = .ok (v, .map m, fun nv => .map (map_insert m key nv)))
    ∧ (∀ v, map_get m key = some v →
      get_indexed_mut e (.map m) (.str key) ip op false
        = .ok (v, .map m, fun nv => .map (map_insert m key nv)))
    ∧ (map_get m key = none →
      get_indexed_mut e (.map m) (.str key) ip op false
        = .error (.errorIndexingType "TODO: Create a real index not found error?" ip)) := by
  refine ⟨?_, ?_, ?_, ?_⟩
  · intro h
    simp [get_indexed_mut, Dynamic.take_string, map_entry_or_insert_unit, h,
      map_get_append_absent m key .unit h]
  · intro v h
    simp [get_indexed_mut, Dynamic.take_string, map_entry_or_insert_unit, h]
  · intro v h
    simp [get_indexed_mut, Dynamic.take_string, h]
  · intro h
    simp [get_indexed_mut, Dynamic.take_string, h]

/-- C4, witness for the amended theorem. -/
theorem C4_witness :
    get_indexed_mut test_engine (.map [("a", .int 1)]) (.str "k") 7 0 true
      = .ok (.unit, .map [("a", .int 1), ("k", .unit)],
          fun nv => .map (map_insert [("a", .int 1), ("k", .unit)] "k" nv)) :=
  (C4_map_indexing test_engine [("a", .int 1)] "k" 7 0).1 rfl

/-- C5. Below the depth check, dispatch resolution order in `call_fn_raw`
is exactly: script-defined functions keyed by name and arity first, then
engine-registered natives keyed by name and argument type ids, then the
package list in order — and `load_package` prepends, so the package list
order is reverse load order with the newest-loaded package first. -/
theorem C5_dispatch_precedence (e : Engine) (fuel : Nat) (fn_lib : FunctionsLib)
    (scope : Option Scope) (name : String) (args : List Dynamic) (dv : Option Dynamic)
    (pos : Pos) (level : Nat)
    (hlevel : ¬ level > e.max_call_stack_depth)
    (hpr : name ≠ KEYWORD_PRINT) (hdb : name ≠ KEYWORD_DEBUG) :
    (∀ fd, fn_lib.get_function name args.length = some fd →
      call_fn_raw e (fuel + 1) fn_lib scope name args dv pos level
        = call_fn_from_lib e fuel fn_lib scope fd args pos level)
    ∧ (∀ f, fn_lib.get_function name args.length = none →
        assoc_get e.functions (name, args.map Dynamic.type_id) = some f →
        call_fn_raw e (fuel + 1) fn_lib scope name args dv pos level
          = (f args, scope, args))
    ∧ (∀ f, fn_lib.get_function name args.length = none →
        assoc_get e.functions (name, args.map Dynamic.type_id) = none →
        package_fn_get e.packages (name, args.map Dynamic.type_id) = some f →
        call_fn_raw e (fuel + 1) fn_lib scope name args dv pos level
          = (f args, scope, args))
    ∧ (∀ p : PackageStore, (e.load_package p).packages = p :: e.packages)
    ∧ (∀ (p : PackageStore) (ps : List PackageStore) (key : String × List TypeId),
        package_fn_get (p :: ps) key
          = match assoc_get p.functions key with
            | some f => some f
            | none => package_fn_get ps key) := by
  refine ⟨?_, ?_, ?_, fun p => rfl, fun p ps key => rfl⟩
  · intro fd hfd
    simp [call_fn_raw, hlevel, hfd]
  · intro f hnone hf
    cases hfa : f args with
    | ok r => simp [call_fn_raw, hlevel, hnone, hf, hfa, hpr, hdb]
    | error err => simp [call_fn_raw, hlevel, hnone, hf, hfa]
  · intro f hnone hfn hp
    cases hfa : f args with
    | ok r => simp [call_fn_raw, hlevel, hnone, hfn, hp, hfa, hpr, hdb]
    | error err => simp [call_fn_raw, hlevel, hnone, hfn, hp, hfa]

/-- C5, witness. -/
theorem C5_witness :
    call_fn_raw test_engine 10 [] none "+" [.int 40, .int 2] none 3 0
      = (.ok (.int 42), none, [.int 40, .int 2]) := by
  have h := (C5_dispatch_precedence test_engine 9 [] none "+" [.int 40, .int 2] none 3 0
    (by decide) (by decide) (by decide)).2.1
    (int_binop fun a b => .int (a + b)) rfl rfl
  rw [h]
  rfl

/-- C6, counterexample. The claim concludes that any program whose dynamic
recursion exceeds `max_call_stack_depth` returns StackOverflow. The chain
evaluator calls `exec_fn_call` with depth 0 for every method-style call, so
`fn f(x) { x.f() }; f(0)` recurses forever under a depth bound of 2 and
never produces StackOverflow (at fuel 400 the model is still running). -/
theorem C6_counterexample :
    (eval_program engine_d2 400 [f_method_def] prog_method_rec).1 = .error .outOfFuel
    ∧ (eval_program engine_d2 400 [f_method_def] prog_method_rec).1
      ≠ .error (.errorStackOverflow 1) := by
  refine ⟨method_rec_diverges 400, ?_⟩
  intro h
  rw [method_rec_diverges 400] at h
  simp at h

/-- C6, amended. `call_fn_raw` fails with StackOverflow, before anything
else, whenever its depth exceeds `max_call_stack_depth`; the default bound
is 28 in debug builds and 256 otherwise; function-call-style recursion
beyond the bound therefore yields StackOverflow (shown on `foo(9)` with
bound 3) — but method-style recursion through the dot chain resets the
depth counter to 0 and diverges at every fuel without a StackOverflow. -/
theorem C6_stack_depth :
    (∀ (e : Engine) (fuel : Nat) (fn_lib : FunctionsLib) (scope : Option Scope)
      (name : String) (args : List Dynamic) (dv : Option Dynamic) (pos : Pos)
      (level : Nat), level > e.max_call_stack_depth →
      call_fn_raw e (fuel + 1) fn_lib scope name args dv pos level
        = (.error (.errorStackOverflow pos), scope, args))
    ∧ MAX_CALL_STACK_DEPTH true = 28
    ∧ MAX_CALL_STACK_DEPTH false = 256
    ∧ (∀ (dbg : Bool) (p : String → Except EvalError (List Stmt × List FnDef)),
        (Engine.new_raw dbg p).max_call_stack_depth = MAX_CALL_STACK_DEPTH dbg)
    ∧ (eval_program engine_d3 200 [foo_def]
        [.exprS (.fnCall "foo" [.integerConstant 9 6] none 6)]).1
      = .error (.errorStackOverflow 6)
    ∧ (∀ fuel : Nat,
        (eval_program engine_d2 fuel [f_method_def] prog_method_rec).1
          = .error .outOfFuel) := by
  refine ⟨?_, rfl, rfl, fun dbg p => rfl, rfl, method_rec_diverges⟩
  intro e fuel fn_lib scope name args dv pos level h
  simp [call_fn_raw, h]

/-- C6, witness. -/
theorem C6_witness :
    call_fn_raw engine_d2 10 [] none "foo" [.int 1] none 9 3
      = (.error (.errorStackOverflow 9), none, [.int 1]) :=
  C6_stack_depth.1 engine_d2 9 [] none "foo" [.int 1] none 9 3 (by decide)

/-- C7, counterexample. At Simple level the optimizer does not preserve
observable results unconditionally: `if 1 { }` fails with LogicGuard when
evaluated directly, but the optimizer rewrites it to the guard expression,
drops it as pure, and the optimized program evaluates to unit. -/
theorem C7_counterexample :
    (eval_program test_engine 100 [] progIf1).1 = .error (.errorLogicGuard 1)
    ∧ optimize test_engine 50 progIf1 Scope.new [] .simple = []
    ∧ (eval_program test_engine 100 []
        (optimize test_engine 50 progIf1 Scope.new [] .simple)).1 = .ok .unit :=
  ⟨rfl, rfl, rfl⟩

/-- C7, amended. At level None the optimizer is the identity, hence
trivially preserving; at Simple (and, for these programs, Full) level
preservation is confirmed on representative programs exercising block
scoping, constant propagation, eager call folding, branch selection,
dead-loop elimination and chain writes — but it fails in general, because
Simple-level rewrites drop runtime boolean guard checks (the
counterexample `if 1 { }`). -/
theorem C7_optimizer_preservation :
    (∀ (e : Engine) (fuel : Nat) (stmts : List Stmt) (scope : Scope)
      (lib : List (String × Nat)), optimize e fuel stmts scope lib .noneL = stmts)
    ∧ (eval_program test_engine 100 []
        (optimize test_engine 50 prog9 Scope.new [] .simple)).1
      = (eval_program test_engine 100 [] prog9).1
    ∧ (eval_program test_engine 100 []
        (optimize test_engine 50 progK Scope.new [] .simple)).1
      = (eval_program test_engine 100 [] progK).1
    ∧ (eval_program test_engine 100 []
        (optimize test_engine 50 progK Scope.new [] .full)).1
      = (eval_program test_engine 100 [] progK).1
    ∧ (eval_program test_engine 100 []
        (optimize test_engine 50 progMix Scope.new [] .simple)).1
      = (eval_program test_engine 100 [] progMix).1
    ∧ (eval_program test_engine 100 []
        (optimize test_engine 50 prog2 Scope.new [] .simple)).1
      = (eval_program test_engine 100 [] prog2).1
    ∧ (eval_program test_engine 100 []
        (optimize test_engine 50 prog3 Scope.new [] .simple)).1
      = (eval_program test_engine 100 [] prog3).1 := by
  refine ⟨?_, rfl, rfl, rfl, rfl, rfl, rfl⟩
  intro e fuel stmts scope lib
  simp [optimize]

/-- C8, counterexample. The claim says a const binding's value never
changes during its scope lifetime. A method call on a constant consumes its
value through the chain's mutable borrow (`mem::take` in
`call_fn_from_lib`): after `const k = 3; k.f(); k` the binding holds unit
and no error was raised. -/
theorem C8_counterexample :
    (eval_program test_engine 100 [f0_def] prog_const_method).1 = .ok .unit
    ∧ (eval_program test_engine 100 [f0_def] prog_const_method).2.1
      = [⟨"k", .constant, .unit, some (.integerConstant 3 0)⟩] :=
  ⟨rfl, rfl⟩

/-- C8, amended. Direct assignment to a constant variable and a chain write
whose LHS resolves to a constant scope entry both fail with
AssignmentToConstant, leaving the scope exactly as the preceding
evaluation left it; `const K = 3; K = 4` yields AssignmentToConstant("K")
with K still 3. (A method call on a constant can still consume its value,
per the counterexample.) -/
theorem C8_const_write_protection :
    (∀ (e : Engine) (fuel : Nat) (fn_lib : FunctionsLib) (scope s1 : Scope)
      (state st1 : State) (rhs : Expr) (level : Nat) (name : String)
      (vpos op_pos : Pos) (v w : Dynamic) (i : Nat) (tf : EntryType),
      eval_expr e fuel fn_lib scope state rhs level = (.ok v, s1, st1) →
      s1.get_index name = some (i, tf) →
      s1.get_value_at i = some (w, .constant) →
      eval_expr e (fuel + 1) fn_lib scope state
        (.assignment (.variable name none vpos) rhs op_pos) level
        = (.error (.errorAssignmentToConstant name op_pos), s1, st1))
    ∧ (∀ (e : Engine) (fuel : Nat) (fn_lib : FunctionsLib) (scope s1 : Scope)
      (state st1 : State) (rhs_chain : Expr) (iv : List Dynamic) (level : Nat)
      (name : String) (vpos op : Pos) (nv w : Dynamic) (i : Nat) (tf : EntryType)
      (is_idx : Bool),
      eval_indexed_chain e fuel fn_lib scope state rhs_chain [] level
        = (.ok (), s1, st1, iv) →
      s1.get_index name = some (i, tf) →
      s1.get_value_at i = some (w, .constant) →
      eval_dot_index_chain e (fuel + 1) fn_lib scope state (.variable name none vpos)
        rhs_chain is_idx op level (some nv)
        = (.error (.errorAssignmentToConstant name vpos), s1, st1))
    ∧ (eval_program test_engine 100 [] prog10).1
      = .error (.errorAssignmentToConstant "K" 2)
    ∧ (eval_program test_engine 100 [] prog10).2.1
      = [⟨"K", .constant, .int 3, some (.integerConstant 3 0)⟩] := by
  refine ⟨?_, ?_, rfl, rfl⟩
  · intro e fuel fn_lib scope s1 state st1 rhs level name vpos op_pos v w i tf
      hr hfind hval
    simp [eval_expr, hr, search_scope, hfind, hval]
  · intro e fuel fn_lib scope s1 state st1 rhs_chain iv level name vpos op nv w i tf
      is_idx hic hfind hval
    simp [eval_dot_index_chain, hic, search_scope, hfind, hval]

/-- C8, witness. -/
theorem C8_witness :
    eval_expr test_engine 10 [] [⟨"K", .constant, .int 3, none⟩] State.new
      (.assignment (.variable "K" none 2) (.integerConstant 4 2) 2) 0
      = (.error (.errorAssignmentToConstant "K" 2), [⟨"K", .constant, .int 3, none⟩],
          State.new) :=
  C8_const_write_protection.1 test_engine 9 [] [⟨"K", .constant, .int 3, none⟩]
    [⟨"K", .constant, .int 3, none⟩] State.new State.new (.integerConstant 4 2) 0 "K" 2 2
    (.int 4) (.int 3) 0 .constant rfl rfl rfl

/-- C9, counterexample. The claim says `always_search` is set after a
function-call-style eval only on success. Here the eval'd script
`let t = 1; zzz` pushes `t` and then fails with VariableNotFound — yet the
flag is set, because the code tests only whether the scope length changed,
ignoring the result. -/
theorem C9_counterexample :
    (eval_program eval_engine 100 [] prog_eval_fail).1
      = .error (.errorVariableNotFound "zzz" 2)
    ∧ (eval_program eval_engine 100 [] prog_eval_fail).2.2.always_search = true :=
  ⟨rfl, rfl⟩

/-- C9, amended. After a function-call-style eval the flag becomes true
exactly when the nested evaluation changed the scope length relative to
the pre-call snapshot — success or failure — and is otherwise left as it
was; every block statement, on exit, rewinds the scope to its entry length
and clears `always_search` unconditionally. -/
theorem C9_always_search :
    (∀ (e : Engine) (fuel : Nat) (fn_lib : FunctionsLib) (scope s1 : Scope)
      (state st1 : State) (arg : Expr) (v : Dynamic) (dv : Option Dynamic)
      (pos : Pos) (level : Nat),
      eval_exprs e fuel fn_lib scope state [arg] level = (.ok [v], s1, st1) →
      has_override e fn_lib KEYWORD_EVAL = false →
      eval_expr e (fuel + 1) fn_lib scope state (.fnCall KEYWORD_EVAL [arg] dv pos) level
        = ((eval_script_expr e fuel fn_lib s1 v arg.position).1,
           (eval_script_expr e fuel fn_lib s1 v arg.position).2,
           if (eval_script_expr e fuel fn_lib s1 v arg.position).2.len ≠ s1.len
             then { st1 with always_search := true } else st1))
    ∧ (∀ (e : Engine) (fuel : Nat) (fn_lib : FunctionsLib) (scope : Scope)
      (state : State) (stmts : List Stmt) (bpos : Pos) (level : Nat),
      eval_stmt e (fuel + 1) fn_lib scope state (.block stmts bpos) level
        = ((eval_stmts e fuel fn_lib scope state stmts level).1,
           (eval_stmts e fuel fn_lib scope state stmts level).2.1.rewind scope.len,
           { (eval_stmts e fuel fn_lib scope state stmts level).2.2 with
               always_search := false }))
    ∧ (eval_program eval_engine 100 [] prog_eval_fail).2.2.always_search = true := by
  refine ⟨?_, ?_, rfl⟩
  · intro e fuel fn_lib scope s1 state st1 arg v dv pos level harg hov
    rcases hs : eval_script_expr e fuel fn_lib s1 v arg.position with ⟨r, s2⟩
    simp [eval_expr, harg, hov, hs]
  · intro e fuel fn_lib scope state stmts bpos level
    rcases hs : eval_stmts e fuel fn_lib scope state stmts level with ⟨r, s2, st2⟩
    simp [eval_stmt, hs]

/-- C9, witness. -/
theorem C9_witness :
    eval_expr eval_engine 50 [] [⟨"a", .normal, .int 0, none⟩] State.new
      (.fnCall KEYWORD_EVAL [.stringConstant "let t = 1; zzz" 2] none 2) 0
      = ((eval_script_expr eval_engine 49 [] [⟨"a", .normal, .int 0, none⟩]
            (.str "let t = 1; zzz") 2).1,
         (eval_script_expr eval_engine 49 [] [⟨"a", .normal, .int 0, none⟩]
            (.str "let t = 1; zzz") 2).2,
         if (eval_script_expr eval_engine 49 [] [⟨"a", .normal, .int 0, none⟩]
              (.str "let t = 1; zzz") 2).2.len ≠ 1
           then { State.new with always_search := true } else State.new) :=
  C9_always_search.1 eval_engine 49 [] [⟨"a", .normal, .int 0, none⟩]
    [⟨"a", .normal, .int 0, none⟩] State.new State.new
    (.stringConstant "let t = 1; zzz" 2) (.str "let t = 1; zzz") none 2 0 rfl rfl

/-- C10, counterexample. The error for an eval'd script that defines a
function is raised at the position of eval's first argument, not at the
eval call's position: with the call node at 4 and the argument at 5 the
error carries 5. -/
theorem C10_counterexample :
    (eval_program eval_engine 100 [] prog_eval_fndef).1
      = .error (.errorParsingWrongFnDefinition 5)
    ∧ (eval_program eval_engine 100 [] prog_eval_fndef).1
      ≠ .error (.errorParsingWrongFnDefinition 4) := by
  refine ⟨rfl, ?_⟩
  intro h
  rw [show (eval_program eval_engine 100 [] prog_eval_fndef).1
      = .error (.errorParsingWrongFnDefinition 5) from rfl] at h
  simp at h

/-- C10, amended. If the compiled eval script defines any function,
`eval_script_expr` fails with the parsing error WrongFnDefinition at the
position handed to it — which the caller sets to the first argument's
position, not the call's — and the enclosing scope is left unchanged (the
whole program's scope stays empty in the fixture). -/
theorem C10_eval_no_fn_definitions (e : Engine) (fuel : Nat) (fn_lib : FunctionsLib)
    (scope : Scope) (s : String) (pos : Pos) (stmts : List Stmt) (fns : List FnDef)
    (hp : e.parse s = .ok (stmts, fns)) (hnz : 0 < fns.length) :
    eval_script_expr e (fuel + 1) fn_lib scope (.str s) pos
      = (.error (.errorParsingWrongFnDefinition pos), scope)
    ∧ (eval_program eval_engine 100 [] prog_eval_fndef).1
      = .error (.errorParsingWrongFnDefinition 5)
    ∧ (eval_program eval_engine 100 [] prog_eval_fndef).2.1 = [] := by
  refine ⟨?_, rfl, rfl⟩
  simp [eval_script_expr, Dynamic.as_str, hp, hnz]

/-- C10, witness. -/
theorem C10_witness :
    eval_script_expr eval_engine 31 [] [] (.str "fn g() {}") 5
      = (.error (.errorParsingWrongFnDefinition 5), [])
    ∧ (eval_program eval_engine 100 [] prog_eval_fndef).1
      = .error (.errorParsingWrongFnDefinition 5)
    ∧ (eval_program eval_engine 100 [] prog_eval_fndef).2.1 = [] :=
  C10_eval_no_fn_definitions eval_engine 30 [] [] "fn g() {}" 5 []
    [{ name := "g", params := [], body := .noop 21 }] rfl (by decide)

end Rhai
